import Mathlib

/-!
# Verification of the transaction-border-controller escrow engine

Shallow embedding of the CoreProver escrow engine
(`crates/coreprover-service/src/engine.rs`, `types.rs`) and of the TGP
session state machine (`crates/tbc-core/src/tgp/state.rs`), with theorems
settling the specification claims.

Machine integers (`u64`) are modelled as `Nat` with explicit `% 2^64`
wherever the Rust code performs arithmetic that can overflow (release
builds wrap); `saturating_sub` on `u64` coincides with `Nat` subtraction.
Rust `Result<T, String>` becomes `Except String T`; since the engine
mutates `&mut self` even on some error paths, every operation returns the
pair (result, post-state).
-/

namespace TBC

/-- Modulus of `u64` arithmetic. -/
def U64 : Nat := 2 ^ 64

/-- Models the Rust guard `s.trim().is_empty()` (engine.rs txid checks):
true exactly when the string contains nothing but whitespace. -/
def trimIsEmpty (s : String) : Bool := s.data.all (fun c => c.isWhitespace)

/-- Models `chrono` RFC-3339 rendering used in `iso8601` (engine.rs):
an external-crate function; we model it as an injective deterministic
function of the unix timestamp, whose exact string content no claim
depends on. -/
def iso8601 (unix : Nat) : String := "iso:" ++ Nat.repr unix

/-- `TimingWindows` from types.rs. -/
structure TimingWindows where
  acceptance_window_secs : Nat
  fulfillment_window_secs : Nat
  claim_window_secs : Nat
deriving DecidableEq, Repr

/-- `TimingWindows::pizza_delivery` from types.rs. -/
def TimingWindows.pizza_delivery : TimingWindows :=
  { acceptance_window_secs := 1800
    fulfillment_window_secs := 3600
    claim_window_secs := 3600 }

/-- `PaymentProfile` from types.rs. -/
structure PaymentProfile where
  timing : TimingWindows
  allows_timed_release : Bool
  enables_late_discount : Bool
  late_discount_pct : Nat
  discount_expiration_days : Nat
deriving DecidableEq, Repr

/-- `PaymentProfile::pizza_delivery` from types.rs. -/
def PaymentProfile.pizza_delivery : PaymentProfile :=
  { timing := TimingWindows.pizza_delivery
    allows_timed_release := true
    enables_late_discount := true
    late_discount_pct := 10
    discount_expiration_days := 90 }

/-- `EscrowState` from types.rs. -/
inductive EscrowState where
  | BuyerCommitted
  | SellerAccepted
  | SellerFulfilled
  | FulfillmentExpired
  | SellerClaimed
  | SellerRefunded
  | BuyerWithdrawn
deriving DecidableEq, Repr

/-- `EscrowState::is_terminal` from types.rs. -/
def EscrowState.is_terminal : EscrowState → Bool
  | .SellerClaimed => true
  | .SellerRefunded => true
  | .BuyerWithdrawn => true
  | _ => false

/-- `EscrowState::can_fulfill` from types.rs. -/
def EscrowState.can_fulfill : EscrowState → Bool
  | .SellerAccepted => true
  | .FulfillmentExpired => true
  | _ => false

/-- An order id: the `[u8; 32]` array, as a list of its 32 bytes. -/
abbrev OrderId : Type := List Nat

/-- `Escrow` from types.rs. -/
structure Escrow where
  order_id : OrderId
  buyer : String
  seller : String
  amount : Nat
  profile : PaymentProfile
  state : EscrowState
  buyer_commit_mono : Nat
  seller_accept_mono : Option Nat
  fulfillment_mono : Option Nat
  settlement_mono : Option Nat
  acceptance_deadline_mono : Nat
  fulfillment_deadline_mono : Option Nat
  buyer_chain_id : Nat
  buyer_commit_txid : String
  seller_chain_id : Nat
  seller_accept_txid : Option String
  seller_fulfill_txid : Option String
  seller_claim_txid : Option String
  seller_refund_txid : Option String
  buyer_withdraw_txid : Option String
  seller_block_height : Option Nat
deriving DecidableEq, Repr

/-- `Escrow::new` from types.rs.  The acceptance deadline is the plain
`u64` addition `current_mono + acceptance_window_secs` (wrapping in
release builds), hence the `% U64`. -/
def Escrow.new (order_id : OrderId) (buyer seller : String) (amount : Nat)
    (profile : PaymentProfile) (buyer_chain_id : Nat)
    (buyer_commit_txid : String) (current_mono : Nat) : Escrow :=
  { order_id := order_id
    buyer := buyer
    seller := seller
    amount := amount
    profile := profile
    state := .BuyerCommitted
    buyer_commit_mono := current_mono
    seller_accept_mono := none
    fulfillment_mono := none
    settlement_mono := none
    acceptance_deadline_mono :=
      (current_mono + profile.timing.acceptance_window_secs) % U64
    fulfillment_deadline_mono := none
    buyer_chain_id := buyer_chain_id
    buyer_commit_txid := buyer_commit_txid
    seller_chain_id := 0
    seller_accept_txid := none
    seller_fulfill_txid := none
    seller_claim_txid := none
    seller_refund_txid := none
    buyer_withdraw_txid := none
    seller_block_height := none }

/-- `ReceiptMetadata` from types.rs. -/
structure ReceiptMetadata where
  session_id : OrderId
  order_amount : Nat
  fulfillment_mono : Nat
  fulfillment_unix : Nat
  fulfillment_iso : String
  settlement_mono : Nat
  settlement_unix : Nat
  settlement_iso : String
  late_fulfilled : Bool
  discount_pct : Nat
  discount_expiration_unix : Nat
  buyer_chain_id : Nat
  buyer_commit_txid : String
  seller_chain_id : Nat
  seller_accept_txid : String
  seller_fulfill_txid : String
  seller_claim_txid : Option String
  seller_refund_txid : Option String
  buyer_withdraw_txid : Option String
  seller_block_height : Nat
deriving DecidableEq, Repr

/-- `CoreProverEngine` from engine.rs (the `TimeTruth` triple is carried
as `current_mono`/`current_unix`; `iso` is always derived by `iso8601`). -/
structure EngineState where
  escrows : List Escrow
  receipts : List ReceiptMetadata
  next_session_counter : Nat
  current_mono : Nat
  current_unix : Nat
  chain_id : Nat
  block_interval_secs : Nat
  current_block_height : Nat
deriving DecidableEq, Repr

namespace EngineState

/-- `CoreProverEngine::new` from engine.rs. -/
def new (chain_id block_interval_secs genesis_unix : Nat) : EngineState :=
  { escrows := []
    receipts := []
    next_session_counter := 1
    current_mono := 0
    current_unix := genesis_unix
    chain_id := chain_id
    block_interval_secs := block_interval_secs
    current_block_height := 1 }

/-- `CoreProverEngine::advance_time` from engine.rs: plain `u64`
additions and an integer division `secs / block_interval_secs`
(Rust panics when the interval is 0; `Nat` division returns 0 there —
every claim about block height assumes a positive interval). -/
def advance_time (s : EngineState) (secs : Nat) : EngineState :=
  { s with
    current_mono := (s.current_mono + secs) % U64
    current_unix := (s.current_unix + secs) % U64
    current_block_height :=
      (s.current_block_height + secs / s.block_interval_secs) % U64 }

/-- `CoreProverEngine::get_escrow` / `get_escrow_mut` lookup (first
escrow whose `order_id` matches). -/
def findEscrow? (s : EngineState) (oid : OrderId) : Option Escrow :=
  s.escrows.find? (fun e => e.order_id == oid)

end EngineState

/-- Replace the first escrow with the given order id by `f` of it -
the effect of mutating through `get_escrow_mut`'s `&mut` reference. -/
def updateFirst (l : List Escrow) (oid : OrderId) (f : Escrow → Escrow) :
    List Escrow :=
  match l with
  | [] => []
  | e :: rest =>
    if e.order_id == oid then f e :: rest else e :: updateFirst rest oid f

/-- Replace the last receipt satisfying `p` by `f` of it - the effect of
`receipts.iter_mut().rev().find(p)` followed by mutation in
`finalize_receipt`. -/
def updateLastR (l : List ReceiptMetadata) (p : ReceiptMetadata → Bool)
    (f : ReceiptMetadata → ReceiptMetadata) : List ReceiptMetadata :=
  match l with
  | [] => []
  | m :: rest =>
    if rest.any p then m :: updateLastR rest p f
    else if p m then f m :: rest
    else m :: rest

/-- `CoreProverEngine::generate_order_id` from engine.rs: only the two
low-order bytes of `next_session_counter` are written into the 32-byte
array; the remaining 30 bytes stay zero. -/
def mkOrderId (counter : Nat) : OrderId :=
  counter % 256 :: (counter / 256) % 256 :: List.replicate 30 0

/-- The escrow mutation performed by a successful `seller_accept`
(engine.rs: seller chain id, accept mono/txid, fulfillment deadline by
plain `u64` addition, state `SellerAccepted`). -/
def acceptUpd (chain mono : Nat) (txid : String) (e : Escrow) : Escrow :=
  { e with
    seller_chain_id := chain
    seller_accept_mono := some mono
    seller_accept_txid := some txid
    fulfillment_deadline_mono :=
      some ((mono + e.profile.timing.fulfillment_window_secs) % U64)
    state := .SellerAccepted }

/-- The escrow mutation performed by a successful `seller_fulfill`
(engine.rs: fulfillment mono/txid; state `FulfillmentExpired` when late,
`SellerFulfilled` otherwise). -/
def fulfillUpd (mono : Nat) (txid : String) (is_late : Bool)
    (e : Escrow) : Escrow :=
  { e with
    fulfillment_mono := some mono
    seller_fulfill_txid := some txid
    state := if is_late then .FulfillmentExpired else .SellerFulfilled }

/-- The escrow mutation performed by `seller_claim` before receipt
finalization (engine.rs: claim txid, settlement mono, block height,
state `SellerClaimed`). -/
def claimUpd (mono bh : Nat) (txid : String) (e : Escrow) : Escrow :=
  { e with
    seller_claim_txid := some txid
    settlement_mono := some mono
    seller_block_height := some bh
    state := .SellerClaimed }

/-- The escrow mutation performed by `seller_refund` before receipt
finalization (engine.rs: refund txid, settlement mono, block height,
state `SellerRefunded`). -/
def refundUpd (mono bh : Nat) (txid : String) (e : Escrow) : Escrow :=
  { e with
    seller_refund_txid := some txid
    settlement_mono := some mono
    seller_block_height := some bh
    state := .SellerRefunded }

/-- The escrow mutation performed by a successful `buyer_withdraw`
(engine.rs: optional withdraw txid, state `BuyerWithdrawn`, settlement
mono; the block-height anchor is explicitly cleared). -/
def withdrawUpd (mono : Nat) (txid : Option String) (e : Escrow) : Escrow :=
  { e with
    buyer_withdraw_txid :=
      match txid with
      | some tx => some tx
      | none => e.buyer_withdraw_txid
    state := .BuyerWithdrawn
    settlement_mono := some mono
    seller_block_height := none }

/-- The escrow mutation performed by `timed_release` before receipt
finalization (engine.rs: synthesized auto-claim txid, state
`SellerClaimed`, block height; note `settlement_mono` is NOT set). -/
def timedUpd (bh : Nat) (txid : String) (e : Escrow) : Escrow :=
  { e with
    seller_claim_txid := some txid
    state := .SellerClaimed
    seller_block_height := some bh }

/-- The escrow mutation performed by `update_state` when the fulfillment
deadline has passed (engine.rs: state `FulfillmentExpired`). -/
def expireUpd (e : Escrow) : Escrow :=
  { e with state := .FulfillmentExpired }

/-- The receipt stub constructed by `create_receipt_stub` (engine.rs:
fulfillment triple-timestamp populated, settlement fields zeroed, late
flag and discount per profile, provenance copied from the escrow). -/
def stubUpd (s : EngineState) (e : Escrow) (is_late : Bool) :
    ReceiptMetadata :=
  let late_discount :=
    if is_late ∧ e.profile.enables_late_discount = true then
      e.profile.late_discount_pct
    else 0
  let discount_expiration_unix :=
    if late_discount > 0 then
      (s.current_unix + (e.profile.discount_expiration_days * 86400) % U64) % U64
    else 0
  { session_id := e.order_id
    order_amount := e.amount
    fulfillment_mono := e.fulfillment_mono.getD s.current_mono
    fulfillment_unix := s.current_unix
    fulfillment_iso := iso8601 s.current_unix
    settlement_mono := 0
    settlement_unix := 0
    settlement_iso := ""
    late_fulfilled := is_late
    discount_pct := late_discount
    discount_expiration_unix := discount_expiration_unix
    buyer_chain_id := e.buyer_chain_id
    buyer_commit_txid := e.buyer_commit_txid
    seller_chain_id := e.seller_chain_id
    seller_accept_txid := e.seller_accept_txid.getD ""
    seller_fulfill_txid := e.seller_fulfill_txid.getD ""
    seller_claim_txid := none
    seller_refund_txid := none
    buyer_withdraw_txid := none
    seller_block_height := 0 }

/-- The receipt mutation performed by `finalize_receipt` on the located
stub (engine.rs: settlement triple-timestamp, block height, and exactly
one of the claim/refund txids copied from the escrow). -/
def finalizeUpd (s : EngineState) (e : Escrow) (refunded : Bool)
    (m : ReceiptMetadata) : ReceiptMetadata :=
  { m with
    settlement_mono := e.settlement_mono.getD s.current_mono
    settlement_unix := s.current_unix
    settlement_iso := iso8601 s.current_unix
    seller_block_height := e.seller_block_height.getD 0
    seller_claim_txid :=
      if refunded then m.seller_claim_txid else e.seller_claim_txid
    seller_refund_txid :=
      if refunded then e.seller_refund_txid else m.seller_refund_txid }

namespace EngineState

/-- `CoreProverEngine::buyer_commit` from engine.rs. -/
def buyer_commit (s : EngineState) (buyer seller : String) (amount : Nat)
    (profile : PaymentProfile) (buyer_chain_id : Nat)
    (buyer_commit_txid : String) : Except String OrderId × EngineState :=
  if trimIsEmpty buyer_commit_txid then
    (.error "buyer_commit_txid is required", s)
  else
    let order_id := mkOrderId s.next_session_counter
    let s' := { s with
      next_session_counter := (s.next_session_counter + 1) % U64 }
    let escrow := Escrow.new order_id buyer seller amount profile
      buyer_chain_id buyer_commit_txid s.current_mono
    (.ok order_id, { s' with escrows := s'.escrows ++ [escrow] })

/-- `CoreProverEngine::seller_accept` from engine.rs.  The fulfillment
deadline is the plain `u64` addition `now.mono + fulfillment_window_secs`. -/
def seller_accept (s : EngineState) (oid : OrderId)
    (seller_accept_txid : String) : Except String Unit × EngineState :=
  match s.findEscrow? oid with
  | none => (.error "Escrow not found", s)
  | some e =>
    if e.state ≠ EscrowState.BuyerCommitted then
      (.error "seller_accept only valid from BuyerCommitted", s)
    else if trimIsEmpty seller_accept_txid then
      (.error "seller_accept_txid is required", s)
    else if s.current_mono > e.acceptance_deadline_mono then
      (.error "acceptance window expired", s)
    else
      let esc := updateFirst s.escrows oid
        (acceptUpd s.chain_id s.current_mono seller_accept_txid)
      (.ok (), { s with escrows := esc })

/-- `CoreProverEngine::create_receipt_stub` from engine.rs. -/
def create_receipt_stub (s : EngineState) (oid : OrderId) (is_late : Bool) :
    Except String Unit × EngineState :=
  match s.findEscrow? oid with
  | none => (.error "Escrow not found", s)
  | some e =>
    (.ok (), { s with receipts := s.receipts ++ [stubUpd s e is_late] })

/-- `CoreProverEngine::seller_fulfill` from engine.rs: mutates the
escrow (fulfillment mono, txid, state) and then calls
`create_receipt_stub`; an error from the stub call would propagate with
the escrow already mutated. -/
def seller_fulfill (s : EngineState) (oid : OrderId)
    (seller_fulfill_txid : String) : Except String Unit × EngineState :=
  match s.findEscrow? oid with
  | none => (.error "Escrow not found", s)
  | some e =>
    if e.state.can_fulfill ≠ true then
      (.error "seller_fulfill invalid in state", s)
    else if trimIsEmpty seller_fulfill_txid then
      (.error "seller_fulfill_txid is required", s)
    else
      let is_late : Bool :=
        match e.fulfillment_deadline_mono with
        | some deadline => decide (s.current_mono > deadline)
        | none => false
      let esc := updateFirst s.escrows oid
        (fulfillUpd s.current_mono seller_fulfill_txid is_late)
      let s₁ := { s with escrows := esc }
      s₁.create_receipt_stub oid is_late

/-- `CoreProverEngine::finalize_receipt` from engine.rs. -/
def finalize_receipt (s : EngineState) (oid : OrderId) (refunded : Bool) :
    Except String Unit × EngineState :=
  match s.findEscrow? oid with
  | none => (.error "Escrow not found", s)
  | some e =>
    if s.receipts.any (fun m => m.session_id == oid) then
      let receipts' := updateLastR s.receipts (fun m => m.session_id == oid)
        (finalizeUpd s e refunded)
      (.ok (), { s with receipts := receipts' })
    else (.error "receipt stub not found", s)

/-- `CoreProverEngine::seller_claim` from engine.rs: the escrow is
mutated (claim txid, settlement mono, block height, state) before
`finalize_receipt` runs; a finalization error leaves those mutations in
place. -/
def seller_claim (s : EngineState) (oid : OrderId)
    (seller_claim_txid : String) : Except String Nat × EngineState :=
  match s.findEscrow? oid with
  | none => (.error "Escrow not found", s)
  | some e =>
    if e.state ≠ EscrowState.SellerFulfilled ∧
        e.state ≠ EscrowState.FulfillmentExpired then
      (.error "seller_claim only valid after fulfillment", s)
    else if trimIsEmpty seller_claim_txid then
      (.error "seller_claim_txid is required", s)
    else
      let esc := updateFirst s.escrows oid
        (claimUpd s.current_mono s.current_block_height seller_claim_txid)
      let s₁ := { s with escrows := esc }
      let r := s₁.finalize_receipt oid false
      (r.1.map (fun _ => e.amount), r.2)

/-- `CoreProverEngine::seller_refund` from engine.rs. -/
def seller_refund (s : EngineState) (oid : OrderId)
    (seller_refund_txid : String) : Except String Nat × EngineState :=
  match s.findEscrow? oid with
  | none => (.error "Escrow not found", s)
  | some e =>
    if e.state ≠ EscrowState.SellerFulfilled ∧
        e.state ≠ EscrowState.FulfillmentExpired then
      (.error "seller_refund only valid after fulfillment", s)
    else if trimIsEmpty seller_refund_txid then
      (.error "seller_refund_txid is required", s)
    else
      let esc := updateFirst s.escrows oid
        (refundUpd s.current_mono s.current_block_height seller_refund_txid)
      let s₁ := { s with escrows := esc }
      let r := s₁.finalize_receipt oid true
      (r.1.map (fun _ => e.amount), r.2)

/-- `CoreProverEngine::buyer_withdraw` from engine.rs. -/
def buyer_withdraw (s : EngineState) (oid : OrderId)
    (buyer_withdraw_txid : Option String) : Except String Nat × EngineState :=
  match s.findEscrow? oid with
  | none => (.error "Escrow not found", s)
  | some e =>
    if e.state ≠ EscrowState.BuyerCommitted ∧
        e.state ≠ EscrowState.FulfillmentExpired then
      (.error "buyer_withdraw not allowed in this state", s)
    else if e.state = EscrowState.BuyerCommitted ∧
        s.current_mono ≤ e.acceptance_deadline_mono then
      (.error "buyer_withdraw not yet allowed", s)
    else
      let esc := updateFirst s.escrows oid
        (withdrawUpd s.current_mono buyer_withdraw_txid)
      (.ok e.amount, { s with escrows := esc })

/-- `CoreProverEngine::timed_release` from engine.rs: the elapsed time
uses `saturating_sub` (which is exactly `Nat` subtraction); the escrow
is mutated before `finalize_receipt` runs, and — unlike `seller_claim` —
`settlement_mono` is NOT set. -/
def timed_release (s : EngineState) (oid : OrderId) :
    Except String Nat × EngineState :=
  match s.findEscrow? oid with
  | none => (.error "Escrow not found", s)
  | some e =>
    if e.profile.allows_timed_release ≠ true then
      (.error "timed_release disabled for this profile", s)
    else if e.state ≠ EscrowState.SellerFulfilled ∧
        e.state ≠ EscrowState.FulfillmentExpired then
      (.error "timed_release only after fulfillment", s)
    else if s.current_mono - e.fulfillment_mono.getD 0 <
        e.profile.timing.claim_window_secs then
      (.error "claim window not expired", s)
    else
      let auto_txid := "auto_claim_txid_" ++ Nat.repr s.current_mono
      let esc := updateFirst s.escrows oid
        (timedUpd s.current_block_height auto_txid)
      let s₁ := { s with escrows := esc }
      let r := s₁.finalize_receipt oid false
      (r.1.map (fun _ => e.amount), r.2)

/-- `CoreProverEngine::update_state` from engine.rs. -/
def update_state (s : EngineState) (oid : OrderId) :
    Except String Unit × EngineState :=
  match s.findEscrow? oid with
  | none => (.error "Escrow not found", s)
  | some e =>
    match e.state, e.fulfillment_deadline_mono with
    | .SellerAccepted, some deadline =>
      if s.current_mono > deadline then
        (.ok (), { s with escrows := updateFirst s.escrows oid expireUpd })
      else (.ok (), s)
    | _, _ => (.ok (), s)

/-- `CoreProverEngine::get_receipt` from engine.rs (first receipt whose
`session_id` matches). -/
def get_receipt (s : EngineState) (oid : OrderId) : Option ReceiptMetadata :=
  s.receipts.find? (fun r => r.session_id == oid)

end EngineState

/-- One public engine operation together with its arguments - the
alphabet over which "every sequence of engine operations" ranges. -/
inductive Op where
  | buyer_commit (buyer seller : String) (amount : Nat)
      (profile : PaymentProfile) (buyer_chain_id : Nat) (txid : String)
  | seller_accept (oid : OrderId) (txid : String)
  | seller_fulfill (oid : OrderId) (txid : String)
  | seller_claim (oid : OrderId) (txid : String)
  | seller_refund (oid : OrderId) (txid : String)
  | buyer_withdraw (oid : OrderId) (txid : Option String)
  | timed_release (oid : OrderId)
  | update_state (oid : OrderId)
  | advance_time (secs : Nat)

/-- Run one operation, keeping only whether it succeeded and the
post-state (`advance_time` never fails). -/
def applyOp (s : EngineState) (op : Op) : Except String Unit × EngineState :=
  match op with
  | .buyer_commit b sl a p c t =>
    ((s.buyer_commit b sl a p c t).1.map (fun _ => ()),
      (s.buyer_commit b sl a p c t).2)
  | .seller_accept oid t => s.seller_accept oid t
  | .seller_fulfill oid t => s.seller_fulfill oid t
  | .seller_claim oid t =>
    ((s.seller_claim oid t).1.map (fun _ => ()), (s.seller_claim oid t).2)
  | .seller_refund oid t =>
    ((s.seller_refund oid t).1.map (fun _ => ()), (s.seller_refund oid t).2)
  | .buyer_withdraw oid t =>
    ((s.buyer_withdraw oid t).1.map (fun _ => ()), (s.buyer_withdraw oid t).2)
  | .timed_release oid =>
    ((s.timed_release oid).1.map (fun _ => ()), (s.timed_release oid).2)
  | .update_state oid => s.update_state oid
  | .advance_time secs => (.ok (), s.advance_time secs)

/-- Run a sequence of operations from a state. -/
def run (s : EngineState) (ops : List Op) : EngineState :=
  ops.foldl (fun s op => (applyOp s op).2) s

/-! ## TGP session state machine (tbc-core/src/tgp/state.rs) -/

/-- `TGPState` from state.rs. -/
inductive TGPState where
  | Idle
  | QuerySent
  | OfferReceived
  | AcceptSent
  | Finalizing
  | Settled
  | Errored
deriving DecidableEq, Repr

/-- `TGPStateError` from state.rs. -/
inductive TGPStateError where
  | InvalidTransition (fromState toState : TGPState)
  | SessionTimeout (at_unix : Nat)
  | TerminalState (state : TGPState)
  | AlreadyInState (state : TGPState)
deriving DecidableEq, Repr

/-- `TGPState::is_terminal` from state.rs. -/
def TGPState.is_terminal : TGPState → Bool
  | .Settled => true
  | .Errored => true
  | _ => false

/-- `TGPState::can_transition_to` from state.rs. -/
def TGPState.can_transition_to (s target : TGPState) : Bool :=
  if s.is_terminal then false
  else
    match s, target with
    | .Idle, .QuerySent => true
    | .QuerySent, .OfferReceived => true
    | .QuerySent, .Errored => true
    | .OfferReceived, .AcceptSent => true
    | .OfferReceived, .Errored => true
    | .AcceptSent, .Finalizing => true
    | .AcceptSent, .Errored => true
    | .Finalizing, .Settled => true
    | .Finalizing, .Errored => true
    | _, .Errored => true
    | _, _ => false

/-- `TGPState::timeout_seconds` from state.rs. -/
def TGPState.timeout_seconds : TGPState → Option Nat
  | .QuerySent => some 30
  | .OfferReceived => some 300
  | .Finalizing => some 600
  | .Idle => none
  | .AcceptSent => some 60
  | .Settled => none
  | .Errored => none

/-- `TGPSession` from state.rs. -/
structure TGPSession where
  session_id : String
  state : TGPState
  query_id : Option String
  offer_id : Option String
  created_at : Nat
  updated_at : Nat
  timeout_at : Option Nat
deriving DecidableEq, Repr

/-- `TGPSession::new` from state.rs; `current_timestamp()` (the OS
clock, external to the core) is passed as the explicit `now` argument. -/
def TGPSession.new (session_id : String) (now : Nat) : TGPSession :=
  { session_id := session_id
    state := .Idle
    query_id := none
    offer_id := none
    created_at := now
    updated_at := now
    timeout_at := none }

/-- `TGPSession::is_timed_out` from state.rs, with the OS clock passed
as the explicit `now` argument. -/
def TGPSession.is_timed_out (sess : TGPSession) (now : Nat) : Bool :=
  match sess.timeout_at with
  | some timeout => decide (now > timeout)
  | none => false

/-- `TGPSession::transition` from state.rs, with the OS clock passed as
the explicit `now` argument; returns the result and the post-session. -/
def TGPSession.transition (sess : TGPSession) (now : Nat)
    (new_state : TGPState) : Except TGPStateError Unit × TGPSession :=
  if sess.is_timed_out now then
    (.error (.SessionTimeout (sess.timeout_at.getD 0)), sess)
  else if sess.state = new_state then
    (.error (.AlreadyInState new_state), sess)
  else if sess.state.is_terminal then
    (.error (.TerminalState sess.state), sess)
  else if sess.state.can_transition_to new_state ≠ true then
    (.error (.InvalidTransition sess.state new_state), sess)
  else
    let updated := now
    let timeout_at :=
      match new_state.timeout_seconds with
      | some t => some ((updated + t) % U64)
      | none => none
    (.ok (), { sess with
      state := new_state
      updated_at := updated
      timeout_at := timeout_at })

/-! ## Helper lemmas about the store-mutation combinators -/

theorem mem_updateFirst {l : List Escrow} {oid : OrderId} {f : Escrow → Escrow}
    {x : Escrow} (hx : x ∈ updateFirst l oid f) :
    x ∈ l ∨ ∃ e, l.find? (fun e => e.order_id == oid) = some e ∧ x = f e := by
  induction l with
  | nil => simp [updateFirst] at hx
  | cons e rest ih =>
    simp only [updateFirst] at hx
    by_cases h : (e.order_id == oid) = true
    · rw [if_pos h] at hx
      rcases List.mem_cons.mp hx with h1 | h1
      · exact Or.inr ⟨e, by simp [List.find?, h], h1⟩
      · exact Or.inl (List.mem_cons_of_mem _ h1)
    · rw [if_neg h] at hx
      rcases List.mem_cons.mp hx with h1 | h1
      · exact Or.inl (h1 ▸ List.mem_cons_self e rest)
      · rcases ih h1 with h2 | ⟨e', he', hx'⟩
        · exact Or.inl (List.mem_cons_of_mem _ h2)
        · refine Or.inr ⟨e', ?_, hx'⟩
          simp [List.find?, h, he']

theorem find?_updateFirst_ne {l : List Escrow} {oid oid' : OrderId}
    {f : Escrow → Escrow} (hf : ∀ e, (f e).order_id = e.order_id)
    (hne : oid' ≠ oid) :
    (updateFirst l oid' f).find? (fun e => e.order_id == oid) =
      l.find? (fun e => e.order_id == oid) := by
  induction l with
  | nil => rfl
  | cons e rest ih =>
    simp only [updateFirst]
    by_cases h : (e.order_id == oid') = true
    · rw [if_pos h]
      have h1 : e.order_id = oid' := by simpa using h
      have h2 : ((f e).order_id == oid) = false := by
        simp [hf e, h1, hne]
      have h3 : (e.order_id == oid) = false := by simp [h1, hne]
      simp [List.find?, h2, h3]
    · rw [if_neg h]
      by_cases h3 : (e.order_id == oid) = true
      · simp [List.find?, h3]
      · simp [List.find?, h3, ih]

theorem find?_updateFirst_self {l : List Escrow} {oid : OrderId}
    {f : Escrow → Escrow} (hf : ∀ e, (f e).order_id = e.order_id) :
    (updateFirst l oid f).find? (fun e => e.order_id == oid) =
      (l.find? (fun e => e.order_id == oid)).map f := by
  induction l with
  | nil => rfl
  | cons e rest ih =>
    simp only [updateFirst]
    by_cases h : (e.order_id == oid) = true
    · have h2 : ((f e).order_id == oid) = true := by
        have : e.order_id = oid := by simpa using h
        simp [hf e, this]
      rw [if_pos h]
      simp [List.find?, h, h2]
    · rw [if_neg h]
      simp [List.find?, h, ih]

theorem filter_updateLastR {l : List ReceiptMetadata}
    {p q : ReceiptMetadata → Bool} {f : ReceiptMetadata → ReceiptMetadata}
    (hpq : ∀ m, p m = true → q m = false)
    (hpf : ∀ m, p m = true → q (f m) = false) :
    (updateLastR l p f).filter q = l.filter q := by
  induction l with
  | nil => rfl
  | cons m rest ih =>
    simp only [updateLastR]
    by_cases h1 : rest.any p = true
    · rw [if_pos h1]
      simp [List.filter, ih]
    · rw [if_neg h1]
      by_cases h2 : p m = true
      · rw [if_pos h2]
        simp [List.filter, hpq m h2, hpf m h2]
      · rw [if_neg h2]

theorem updateLastR_decomp {l : List ReceiptMetadata}
    (p : ReceiptMetadata → Bool) (f : ReceiptMetadata → ReceiptMetadata)
    (h : l.any p = true) :
    ∃ l₁ m l₂, l = l₁ ++ m :: l₂ ∧ p m = true ∧ l₂.any p = false ∧
      updateLastR l p f = l₁ ++ f m :: l₂ := by
  induction l with
  | nil => simp at h
  | cons m rest ih =>
    by_cases h1 : rest.any p = true
    · rcases ih h1 with ⟨l₁, m', l₂, hsplit, hm', hl₂, hupd⟩
      refine ⟨m :: l₁, m', l₂, by simp [hsplit], hm', hl₂, ?_⟩
      simp only [updateLastR, if_pos h1, hupd, List.cons_append]
    · have h2 : p m = true := by
        rcases (List.any_eq_true).mp h with ⟨x, hx, hpx⟩
        rcases List.mem_cons.mp hx with rfl | hx'
        · exact hpx
        · exact absurd (List.any_eq_true.mpr ⟨x, hx', hpx⟩) (by simp [h1])
      refine ⟨[], m, rest, rfl, h2, by simpa using h1, ?_⟩
      simp [updateLastR, h1, h2]

/-- Unfold one step of `run`. -/
theorem run_cons (s : EngineState) (op : Op) (ops : List Op) :
    run s (op :: ops) = run (applyOp s op).2 ops := rfl

theorem run_nil (s : EngineState) : run s [] = s := rfl

/-- Any property preserved by every single operation holds after every
sequence of operations. -/
theorem run_preserves (P : EngineState → Prop)
    (hstep : ∀ s op, P s → P (applyOp s op).2) :
    ∀ ops s, P s → P (run s ops) := by
  intro ops
  induction ops with
  | nil => intro s h; exact h
  | cons op ops ih =>
    intro s h
    rw [run_cons]
    exact ih _ (hstep s op h)

/-! ## The claim/refund txid invariant (C3) -/

/-- The per-escrow invariant: the claim txid is set exactly in state
`SellerClaimed`, the refund txid exactly in state `SellerRefunded`. -/
def ClaimRefundInv (e : Escrow) : Prop :=
  (e.seller_claim_txid.isSome = true ↔ e.state = EscrowState.SellerClaimed) ∧
  (e.seller_refund_txid.isSome = true ↔ e.state = EscrowState.SellerRefunded)

/-- The invariant over a whole escrow store. -/
def InvAll (l : List Escrow) : Prop := ∀ e ∈ l, ClaimRefundInv e

theorem InvAll_updateFirst {l : List Escrow} {oid : OrderId}
    {f : Escrow → Escrow} (h : InvAll l)
    (hf : ∀ e, l.find? (fun e => e.order_id == oid) = some e →
      ClaimRefundInv (f e)) :
    InvAll (updateFirst l oid f) := by
  intro x hx
  rcases mem_updateFirst hx with h1 | ⟨e, he, rfl⟩
  · exact h x h1
  · exact hf e he

/-- `create_receipt_stub` never touches the escrow store. -/
theorem create_receipt_stub_escrows (s : EngineState) (oid : OrderId)
    (b : Bool) : (s.create_receipt_stub oid b).2.escrows = s.escrows := by
  simp only [EngineState.create_receipt_stub]
  cases s.findEscrow? oid <;> rfl

/-- `finalize_receipt` never touches the escrow store. -/
theorem finalize_receipt_escrows (s : EngineState) (oid : OrderId)
    (r : Bool) : (s.finalize_receipt oid r).2.escrows = s.escrows := by
  simp only [EngineState.finalize_receipt]
  split
  · rfl
  · split
    · rfl
    · rfl

theorem InvAll_applyOp (s : EngineState) (op : Op) (h : InvAll s.escrows) :
    InvAll ((applyOp s op).2.escrows) := by
  have hsame : ∀ {oid : OrderId} {e e' : Escrow}, s.findEscrow? oid = some e →
      List.find? (fun x => x.order_id == oid) s.escrows = some e' → e' = e := by
    intro oid e e' h1 h2
    have h3 : s.findEscrow? oid = some e' := h2
    rw [h1] at h3
    exact (Option.some_inj.mp h3).symm
  cases op with
  | buyer_commit b sl a p c t =>
    simp only [applyOp, EngineState.buyer_commit]
    split
    · exact h
    · intro x hx
      rcases List.mem_append.mp hx with h1 | h1
      · exact h x h1
      · simp only [List.mem_singleton] at h1
        subst h1
        constructor <;> simp [Escrow.new]
  | seller_accept oid t =>
    simp only [applyOp, EngineState.seller_accept]
    cases hfind : s.findEscrow? oid with
    | none => simpa [hfind] using h
    | some e =>
      simp only [hfind]
      split_ifs with h1 h2 h3
      · exact h
      · exact h
      · exact h
      · refine InvAll_updateFirst h (fun e' he' => ?_)
        have hinv := h e' (List.mem_of_find?_eq_some he')
        have heq := hsame hfind he'
        subst heq
        push_neg at h1
        constructor <;> simp [acceptUpd, hinv.1, hinv.2, h1]
  | seller_fulfill oid t =>
    simp only [applyOp, EngineState.seller_fulfill]
    cases hfind : s.findEscrow? oid with
    | none => simpa [hfind] using h
    | some e =>
      simp only [hfind]
      split_ifs with h1 h2
      · exact h
      · exact h
      · rw [create_receipt_stub_escrows]
        refine InvAll_updateFirst h (fun e' he' => ?_)
        have hinv := h e' (List.mem_of_find?_eq_some he')
        have heq := hsame hfind he'
        subst heq
        have hcan : e'.state.can_fulfill = true := not_not.mp h1
        have hne1 : e'.state ≠ EscrowState.SellerClaimed := by
          intro hc
          rw [hc] at hcan
          simp [EscrowState.can_fulfill] at hcan
        have hne2 : e'.state ≠ EscrowState.SellerRefunded := by
          intro hc
          rw [hc] at hcan
          simp [EscrowState.can_fulfill] at hcan
        constructor <;>
          · simp only [fulfillUpd]
            split <;> simp [hinv.1, hinv.2, hne1, hne2]
  | seller_claim oid t =>
    simp only [applyOp, EngineState.seller_claim]
    cases hfind : s.findEscrow? oid with
    | none => simpa [hfind] using h
    | some e =>
      simp only [hfind]
      split_ifs with h1 h2
      · exact h
      · exact h
      · rw [finalize_receipt_escrows]
        refine InvAll_updateFirst h (fun e' he' => ?_)
        have hinv := h e' (List.mem_of_find?_eq_some he')
        have heq := hsame hfind he'
        subst heq
        have hstate : e'.state = EscrowState.SellerFulfilled ∨
            e'.state = EscrowState.FulfillmentExpired := by
          rcases not_and_or.mp h1 with h' | h'
          · exact Or.inl (not_not.mp h')
          · exact Or.inr (not_not.mp h')
        have hne2 : e'.state ≠ EscrowState.SellerRefunded := by
          rcases hstate with hs | hs <;> simp [hs]
        constructor <;> simp [claimUpd, hinv.1, hinv.2, hne2]
  | seller_refund oid t =>
    simp only [applyOp, EngineState.seller_refund]
    cases hfind : s.findEscrow? oid with
    | none => simpa [hfind] using h
    | some e =>
      simp only [hfind]
      split_ifs with h1 h2
      · exact h
      · exact h
      · rw [finalize_receipt_escrows]
        refine InvAll_updateFirst h (fun e' he' => ?_)
        have hinv := h e' (List.mem_of_find?_eq_some he')
        have heq := hsame hfind he'
        subst heq
        have hstate : e'.state = EscrowState.SellerFulfilled ∨
            e'.state = EscrowState.FulfillmentExpired := by
          rcases not_and_or.mp h1 with h' | h'
          · exact Or.inl (not_not.mp h')
          · exact Or.inr (not_not.mp h')
        have hne1 : e'.state ≠ EscrowState.SellerClaimed := by
          rcases hstate with hs | hs <;> simp [hs]
        constructor <;> simp [refundUpd, hinv.1, hinv.2, hne1]
  | buyer_withdraw oid t =>
    simp only [applyOp, EngineState.buyer_withdraw]
    cases hfind : s.findEscrow? oid with
    | none => simpa [hfind] using h
    | some e =>
      simp only [hfind]
      split_ifs with h1 h2
      · exact h
      · exact h
      · refine InvAll_updateFirst h (fun e' he' => ?_)
        have hinv := h e' (List.mem_of_find?_eq_some he')
        have heq := hsame hfind he'
        subst heq
        have hstate : e'.state = EscrowState.BuyerCommitted ∨
            e'.state = EscrowState.FulfillmentExpired := by
          rcases not_and_or.mp h1 with h' | h'
          · exact Or.inl (not_not.mp h')
          · exact Or.inr (not_not.mp h')
        have hne1 : e'.state ≠ EscrowState.SellerClaimed := by
          rcases hstate with hs | hs <;> simp [hs]
        have hne2 : e'.state ≠ EscrowState.SellerRefunded := by
          rcases hstate with hs | hs <;> simp [hs]
        constructor <;> simp [withdrawUpd, hinv.1, hinv.2, hne1, hne2]
  | timed_release oid =>
    simp only [applyOp, EngineState.timed_release]
    cases hfind : s.findEscrow? oid with
    | none => simpa [hfind] using h
    | some e =>
      simp only [hfind]
      split_ifs with h1 h2 h3
      · exact h
      · exact h
      · exact h
      · rw [finalize_receipt_escrows]
        refine InvAll_updateFirst h (fun e' he' => ?_)
        have hinv := h e' (List.mem_of_find?_eq_some he')
        have heq := hsame hfind he'
        subst heq
        have hstate : e'.state = EscrowState.SellerFulfilled ∨
            e'.state = EscrowState.FulfillmentExpired := by
          rcases not_and_or.mp h2 with h' | h'
          · exact Or.inl (not_not.mp h')
          · exact Or.inr (not_not.mp h')
        have hne2 : e'.state ≠ EscrowState.SellerRefunded := by
          rcases hstate with hs | hs <;> simp [hs]
        constructor <;> simp [timedUpd, hinv.1, hinv.2, hne2]
  | update_state oid =>
    simp only [applyOp, EngineState.update_state]
    cases hfind : s.findEscrow? oid with
    | none => simpa [hfind] using h
    | some e =>
      simp only [hfind]
      split
      · split_ifs with h1
        · rename_i hst hdl
          refine InvAll_updateFirst h (fun e' he' => ?_)
          have hinv := h e' (List.mem_of_find?_eq_some he')
          have heq := hsame hfind he'
          subst heq
          constructor <;> simp [expireUpd, hinv.1, hinv.2, hst]
        · exact h
      · exact h
  | advance_time secs =>
    simpa [applyOp, EngineState.advance_time] using h

/-! ## Concrete scenarios used as witnesses -/

/-- The order id minted by the first `buyer_commit` on a fresh engine. -/
def oid1 : OrderId := mkOrderId 1

/-- The happy-path scenario of spec §8: commit, accept, fulfill, claim. -/
def happyOps : List Op :=
  [Op.buyer_commit "buyer" "seller" 25000000 PaymentProfile.pizza_delivery 1 "txA",
   Op.advance_time 300,
   Op.seller_accept oid1 "txB",
   Op.advance_time 1800,
   Op.seller_fulfill oid1 "txC",
   Op.seller_claim oid1 "txD"]

/-- A default escrow used only to strip the `Option` from concrete
lookups that provably return `some`. -/
def defaultEscrow : Escrow :=
  Escrow.new [] "" "" 0 PaymentProfile.pizza_delivery 0 "x" 0

/-- The escrow produced by the happy-path scenario. -/
def happyEscrow : Escrow :=
  ((run (EngineState.new 1 12 1000) happyOps).findEscrow? oid1).getD defaultEscrow

/-- C3. Universal invariant, after every sequence of engine operations
(successful or failed): for every escrow in the store, exactly one of
seller_claim_txid / seller_refund_txid is Some if and only if its state
is SellerClaimed or SellerRefunded, and both are None otherwise. -/
theorem C3_claim_refund_xor_invariant (chain interval genesis : Nat)
    (ops : List Op) (e : Escrow)
    (he : e ∈ (run (EngineState.new chain interval genesis) ops).escrows) :
    (((e.seller_claim_txid.isSome = true ∧ e.seller_refund_txid = none) ∨
      (e.seller_claim_txid = none ∧ e.seller_refund_txid.isSome = true)) ↔
      (e.state = EscrowState.SellerClaimed ∨
        e.state = EscrowState.SellerRefunded)) ∧
    (¬(e.state = EscrowState.SellerClaimed ∨
        e.state = EscrowState.SellerRefunded) →
      e.seller_claim_txid = none ∧ e.seller_refund_txid = none) := by
  have hrun : InvAll (run (EngineState.new chain interval genesis) ops).escrows := by
    refine run_preserves (fun s => InvAll s.escrows)
      (fun s op hs => InvAll_applyOp s op hs) ops _ ?_
    intro x hx
    simp [EngineState.new] at hx
  rcases hrun e he with ⟨h1, h2⟩
  have hclaimnone : ∀ st, e.state = st → st ≠ EscrowState.SellerClaimed →
      e.seller_claim_txid = none := by
    intro st hst hne
    refine Option.not_isSome_iff_eq_none.mp (fun hh => ?_)
    exact hne (hst ▸ h1.mp hh)
  have hrefundnone : ∀ st, e.state = st → st ≠ EscrowState.SellerRefunded →
      e.seller_refund_txid = none := by
    intro st hst hne
    refine Option.not_isSome_iff_eq_none.mp (fun hh => ?_)
    exact hne (hst ▸ h2.mp hh)
  constructor
  · constructor
    · rintro (⟨ha, _⟩ | ⟨_, hb⟩)
      · exact Or.inl (h1.mp ha)
      · exact Or.inr (h2.mp hb)
    · rintro (hs | hs)
      · refine Or.inl ⟨h1.mpr hs, hrefundnone _ hs (by intro hc; cases hc)⟩
      · refine Or.inr ⟨hclaimnone _ hs (by intro hc; cases hc), h2.mpr hs⟩
  · intro hn
    push_neg at hn
    exact ⟨hclaimnone _ rfl hn.1, hrefundnone _ rfl hn.2⟩

/-- Witness for C3: the happy-path escrow satisfies the invariant, and
is indeed in the store. -/
theorem C3_claim_refund_xor_invariant_witness :
    happyEscrow ∈ (run (EngineState.new 1 12 1000) happyOps).escrows ∧
    ((((happyEscrow.seller_claim_txid.isSome = true ∧
        happyEscrow.seller_refund_txid = none) ∨
      (happyEscrow.seller_claim_txid = none ∧
        happyEscrow.seller_refund_txid.isSome = true)) ↔
      (happyEscrow.state = EscrowState.SellerClaimed ∨
        happyEscrow.state = EscrowState.SellerRefunded)) ∧
    (¬(happyEscrow.state = EscrowState.SellerClaimed ∨
        happyEscrow.state = EscrowState.SellerRefunded) →
      happyEscrow.seller_claim_txid = none ∧
        happyEscrow.seller_refund_txid = none)) := by
  have hf : List.find? (fun e => e.order_id == oid1)
      (run (EngineState.new 1 12 1000) happyOps).escrows = some happyEscrow := rfl
  have hm := List.mem_of_find?_eq_some hf
  exact ⟨hm, C3_claim_refund_xor_invariant 1 12 1000 happyOps happyEscrow hm⟩

/-! ## C1: failed transitions and store mutation -/

/-- Whether an operation is one of the settlement operations that call
`finalize_receipt` after mutating the escrow. -/
def Op.isSettlement : Op → Bool
  | .seller_claim _ _ => true
  | .seller_refund _ _ => true
  | .timed_release _ => true
  | _ => false

/-- The order targeted by an operation, when there is one. -/
def Op.target? : Op → Option OrderId
  | .buyer_commit _ _ _ _ _ _ => none
  | .seller_accept oid _ => some oid
  | .seller_fulfill oid _ => some oid
  | .seller_claim oid _ => some oid
  | .seller_refund oid _ => some oid
  | .buyer_withdraw oid _ => some oid
  | .timed_release oid => some oid
  | .update_state oid => some oid
  | .advance_time _ => none

/-- All the escrow-record updates performed by the engine keep the
order id. -/
theorem updateFirst_escrows_preserve {l : List Escrow} {oid : OrderId}
    (f : Escrow → Escrow) (hf : ∀ e, (f e).order_id = e.order_id)
    {e : Escrow} (hfind : l.find? (fun e => e.order_id == oid) = some e) :
    (updateFirst l oid f).find? (fun e => e.order_id == oid) = some (f e) := by
  rw [find?_updateFirst_self hf, hfind]
  rfl

/-- Shape of a `finalize_receipt` failure when the escrow exists: the
only error is the missing stub, and the state is returned untouched. -/
theorem finalize_receipt_error_shape {s : EngineState} {oid : OrderId}
    {r : Bool} {msg : String} {e : Escrow}
    (hfind : s.findEscrow? oid = some e)
    (h : (s.finalize_receipt oid r).1 = Except.error msg) :
    msg = "receipt stub not found" ∧
    (s.receipts.any (fun m => m.session_id == oid)) = false ∧
    (s.finalize_receipt oid r).2 = s := by
  simp only [EngineState.finalize_receipt, hfind] at h ⊢
  by_cases hany : (s.receipts.any fun m => m.session_id == oid) = true
  · rw [if_pos hany] at h
    cases h
  · rw [if_neg hany] at h ⊢
    exact ⟨(Except.error.inj h).symm, by simpa using hany, rfl⟩

/-- The engine state reached by: commit with the pizza profile, accept,
advance past the fulfillment deadline, `update_state`.  The escrow is in
`FulfillmentExpired` and no receipt stub exists. -/
def sC1pre : EngineState :=
  run (EngineState.new 1 12 1000)
    [Op.buyer_commit "buyer" "seller" 100 PaymentProfile.pizza_delivery 1 "txA",
     Op.seller_accept oid1 "txB",
     Op.advance_time 3601,
     Op.update_state oid1]

/-- Counterexample to C1.  Concretely: commit with the pizza profile,
accept, advance past the fulfillment deadline, `update_state` (reaching
`FulfillmentExpired` with no receipt stub), then `seller_claim`.  The
call returns an error, yet the escrow store changed: the escrow now has
state `SellerClaimed` (it was `FulfillmentExpired`). -/
theorem C1_counterexample :
    ((sC1pre.seller_claim oid1 "txC").1 =
      Except.error "receipt stub not found") ∧
    (sC1pre.seller_claim oid1 "txC").2.escrows ≠ sC1pre.escrows := by
  refine ⟨rfl, ?_⟩
  intro h
  have h' := congrArg
    (fun l => (l.find? (fun e => e.order_id == oid1)).map Escrow.state) h
  have h1 : ((sC1pre.seller_claim oid1 "txC").2.escrows.find?
      (fun e => e.order_id == oid1)).map Escrow.state =
      some EscrowState.SellerClaimed := rfl
  have h2 : (sC1pre.escrows.find? (fun e => e.order_id == oid1)).map
      Escrow.state = some EscrowState.FulfillmentExpired := rfl
  simp only [] at h'
  rw [h1, h2] at h'
  cases h'

/-- `create_receipt_stub` cannot fail when the escrow exists. -/
theorem create_receipt_stub_ok {s : EngineState} {oid : OrderId} {b : Bool}
    {e : Escrow} (hfind : s.findEscrow? oid = some e) :
    (s.create_receipt_stub oid b).1 = Except.ok () := by
  simp [EngineState.create_receipt_stub, hfind]

/-- Shape of the settlement tail shared by `seller_claim`,
`seller_refund` and `timed_release` when finalization fails. -/
theorem settlement_tail_error {s₁ : EngineState} {oid : OrderId} {rb : Bool}
    {amt : Nat} {msg : String} {e₁ : Escrow}
    (hfind₁ : s₁.findEscrow? oid = some e₁)
    (herr : ((s₁.finalize_receipt oid rb).1.map (fun _ => amt)).map
      (fun _ => ()) = (Except.error msg : Except String Unit)) :
    (s₁.finalize_receipt oid rb).2.receipts = s₁.receipts ∧
    msg = "receipt stub not found" ∧
    (s₁.receipts.any (fun m => m.session_id == oid)) = false := by
  cases hr : (s₁.finalize_receipt oid rb).1 with
  | ok _ =>
    rw [hr] at herr
    simp [Except.map] at herr
  | error m =>
    rw [hr] at herr
    simp only [Except.map] at herr
    have hm : m = msg := Except.error.inj herr
    subst hm
    have hshape := finalize_receipt_error_shape hfind₁ hr
    exact ⟨by rw [hshape.2.2], hshape.1, hshape.2.1⟩

/-- `create_receipt_stub` after an order-id-preserving escrow update: it
still cannot fail. -/
theorem create_receipt_stub_after_update (s : EngineState) (oid : OrderId)
    (b : Bool) (f : Escrow → Escrow) (hf : ∀ x, (f x).order_id = x.order_id)
    {e : Escrow} (hfind : s.findEscrow? oid = some e) :
    (EngineState.create_receipt_stub
      { s with escrows := updateFirst s.escrows oid f } oid b).1 =
      Except.ok () := by
  exact create_receipt_stub_ok (updateFirst_escrows_preserve f hf hfind)

/-- `settlement_tail_error` specialized to the state shape produced by
the settlement operations. -/
theorem settlement_tail_error_after_update (s : EngineState) (oid : OrderId)
    (rb : Bool) (amt : Nat) (msg : String) (f : Escrow → Escrow)
    (hf : ∀ x, (f x).order_id = x.order_id) {e : Escrow}
    (hfind : s.findEscrow? oid = some e)
    (herr : (((EngineState.finalize_receipt
        { s with escrows := updateFirst s.escrows oid f } oid rb).1.map
        (fun _ => amt)).map (fun _ => ())) = Except.error msg) :
    (EngineState.finalize_receipt
      { s with escrows := updateFirst s.escrows oid f } oid rb).2.receipts =
        s.receipts ∧
    msg = "receipt stub not found" ∧
    (s.receipts.any (fun m => m.session_id == oid)) = false := by
  have h1 : (EngineState.findEscrow?
      { s with escrows := updateFirst s.escrows oid f } oid) = some (f e) :=
    updateFirst_escrows_preserve f hf hfind
  have h2 := settlement_tail_error h1 herr
  exact ⟨h2.1, h2.2.1, h2.2.2⟩

/-- C1 amended: if an engine operation returns an error, the receipts
store is unchanged, and the escrow store is also unchanged — except that
seller_claim, seller_refund and timed_release, applied to an order in a
claimable state but with no receipt stub recorded for it, mutate the
escrow first and then fail with "receipt stub not found". -/
theorem C1_error_leaves_stores (s : EngineState) (op : Op) (msg : String)
    (herr : (applyOp s op).1 = Except.error msg) :
    (applyOp s op).2.receipts = s.receipts ∧
    ((applyOp s op).2.escrows = s.escrows ∨
      (op.isSettlement = true ∧ msg = "receipt stub not found" ∧
        ∃ oid, op.target? = some oid ∧
          (s.receipts.any (fun m => m.session_id == oid)) = false)) := by
  cases op with
  | buyer_commit b sl a p c t =>
    simp only [applyOp, EngineState.buyer_commit] at herr ⊢
    split at herr
    · simp_all
    · simp [Except.map] at herr
  | seller_accept oid t =>
    simp only [applyOp, EngineState.seller_accept] at herr ⊢
    cases hfind : s.findEscrow? oid with
    | none => simp [hfind]
    | some e =>
      simp only [hfind] at herr ⊢
      split_ifs at herr ⊢ with h1 h2 h3
      · exact ⟨rfl, Or.inl rfl⟩
      · exact ⟨rfl, Or.inl rfl⟩
      · exact ⟨rfl, Or.inl rfl⟩
  | seller_fulfill oid t =>
    simp only [applyOp, EngineState.seller_fulfill] at herr ⊢
    cases hfind : s.findEscrow? oid with
    | none => simp [hfind]
    | some e =>
      simp only [hfind] at herr ⊢
      split_ifs at herr ⊢ with h1 h2
      · exact ⟨rfl, Or.inl rfl⟩
      · exact ⟨rfl, Or.inl rfl⟩
      · rw [create_receipt_stub_after_update s oid
          (match e.fulfillment_deadline_mono with
           | some deadline => decide (s.current_mono > deadline)
           | none => false)
          (fulfillUpd s.current_mono t
            (match e.fulfillment_deadline_mono with
             | some deadline => decide (s.current_mono > deadline)
             | none => false))
          (fun x => rfl) hfind] at herr
        cases herr
  | seller_claim oid t =>
    simp only [applyOp, EngineState.seller_claim] at herr ⊢
    cases hfind : s.findEscrow? oid with
    | none => simp [hfind]
    | some e =>
      simp only [hfind] at herr ⊢
      split_ifs at herr ⊢ with h1 h2
      · exact ⟨rfl, Or.inl rfl⟩
      · exact ⟨rfl, Or.inl rfl⟩
      · obtain ⟨hrec, hmsg, hany⟩ := settlement_tail_error_after_update
          s oid false e.amount msg
          (claimUpd s.current_mono s.current_block_height t)
          (fun x => rfl) hfind herr
        exact ⟨hrec, Or.inr ⟨rfl, hmsg, oid, rfl, hany⟩⟩
  | seller_refund oid t =>
    simp only [applyOp, EngineState.seller_refund] at herr ⊢
    cases hfind : s.findEscrow? oid with
    | none => simp [hfind]
    | some e =>
      simp only [hfind] at herr ⊢
      split_ifs at herr ⊢ with h1 h2
      · exact ⟨rfl, Or.inl rfl⟩
      · exact ⟨rfl, Or.inl rfl⟩
      · obtain ⟨hrec, hmsg, hany⟩ := settlement_tail_error_after_update
          s oid true e.amount msg
          (refundUpd s.current_mono s.current_block_height t)
          (fun x => rfl) hfind herr
        exact ⟨hrec, Or.inr ⟨rfl, hmsg, oid, rfl, hany⟩⟩
  | buyer_withdraw oid t =>
    simp only [applyOp, EngineState.buyer_withdraw] at herr ⊢
    cases hfind : s.findEscrow? oid with
    | none => simp [hfind]
    | some e =>
      simp only [hfind] at herr ⊢
      split_ifs at herr ⊢ with h1 h2
      · exact ⟨rfl, Or.inl rfl⟩
      · exact ⟨rfl, Or.inl rfl⟩
      · simp [Except.map] at herr
  | timed_release oid =>
    simp only [applyOp, EngineState.timed_release] at herr ⊢
    cases hfind : s.findEscrow? oid with
    | none => simp [hfind]
    | some e =>
      simp only [hfind] at herr ⊢
      split_ifs at herr ⊢ with h1 h2 h3
      · exact ⟨rfl, Or.inl rfl⟩
      · exact ⟨rfl, Or.inl rfl⟩
      · exact ⟨rfl, Or.inl rfl⟩
      · obtain ⟨hrec, hmsg, hany⟩ := settlement_tail_error_after_update
          s oid false e.amount msg
          (timedUpd s.current_block_height
            ("auto_claim_txid_" ++ Nat.repr s.current_mono))
          (fun x => rfl) hfind herr
        exact ⟨hrec, Or.inr ⟨rfl, hmsg, oid, rfl, hany⟩⟩
  | update_state oid =>
    simp only [applyOp, EngineState.update_state] at herr ⊢
    cases hfind : s.findEscrow? oid with
    | none => simp [hfind]
    | some e =>
      simp only [hfind] at herr ⊢
      exfalso
      split at herr
      · split_ifs at herr with h1
      · cases herr
  | advance_time secs =>
    simp only [applyOp] at herr
    cases herr

/-- Witness for C1 amended: the failing `seller_claim` of the
counterexample scenario leaves the receipts store unchanged, and its
escrow mutation is covered by the no-stub settlement exception. -/
theorem C1_error_leaves_stores_witness :
    ((applyOp sC1pre (Op.seller_claim oid1 "txC")).1 =
      Except.error "receipt stub not found") ∧
    (applyOp sC1pre (Op.seller_claim oid1 "txC")).2.receipts =
      sC1pre.receipts ∧
    ((applyOp sC1pre (Op.seller_claim oid1 "txC")).2.escrows =
        sC1pre.escrows ∨
      ((Op.seller_claim oid1 "txC").isSettlement = true ∧
        "receipt stub not found" = "receipt stub not found" ∧
        ∃ oid, (Op.seller_claim oid1 "txC").target? = some oid ∧
          (sC1pre.receipts.any (fun m => m.session_id == oid)) = false)) := by
  have herr : (applyOp sC1pre (Op.seller_claim oid1 "txC")).1 =
      Except.error "receipt stub not found" := rfl
  exact ⟨herr, C1_error_leaves_stores sC1pre (Op.seller_claim oid1 "txC")
    "receipt stub not found" herr⟩

/-! ## C4: order-id uniqueness -/

/-- Whether an operation is a `buyer_commit` that will succeed (the only
precondition checked by the code is a non-blank txid). -/
def Op.isOkCommit : Op → Bool
  | .buyer_commit _ _ _ _ _ t => !(trimIsEmpty t)
  | _ => false

/-- The number of successful `buyer_commit`s in a sequence. -/
def countOk (ops : List Op) : Nat := (ops.filter Op.isOkCommit).length

/-- The order ids returned by the successful `buyer_commit`s of a run. -/
def runCommitIds (s : EngineState) : List Op → List OrderId
  | [] => []
  | op :: rest =>
    match op with
    | .buyer_commit b sl a p c t =>
      match (s.buyer_commit b sl a p c t).1 with
      | .ok oid => oid :: runCommitIds (applyOp s op).2 rest
      | .error _ => runCommitIds (applyOp s op).2 rest
    | _ => runCommitIds (applyOp s op).2 rest

/-- `mkOrderId` only depends on the counter modulo `2^64` (indeed modulo
`2^16`). -/
theorem mkOrderId_congr {a b : Nat} (h : a % U64 = b % U64) :
    mkOrderId a = mkOrderId b := by
  unfold mkOrderId
  unfold U64 at h
  have h1 : a % 256 = b % 256 := by omega
  have h2 : a / 256 % 256 = b / 256 % 256 := by omega
  rw [h1, h2]

/-- `create_receipt_stub` leaves the session counter alone. -/
theorem create_receipt_stub_counter (s : EngineState) (oid : OrderId)
    (b : Bool) :
    (s.create_receipt_stub oid b).2.next_session_counter =
      s.next_session_counter := by
  simp only [EngineState.create_receipt_stub]
  cases s.findEscrow? oid <;> rfl

/-- `finalize_receipt` leaves the session counter alone. -/
theorem finalize_receipt_counter (s : EngineState) (oid : OrderId)
    (r : Bool) :
    (s.finalize_receipt oid r).2.next_session_counter =
      s.next_session_counter := by
  simp only [EngineState.finalize_receipt]
  split
  · rfl
  · split
    · rfl
    · rfl

/-- Only a successful `buyer_commit` moves the session counter, and it
moves it by one (modulo `2^64`). -/
theorem counter_applyOp (s : EngineState) (op : Op) :
    (applyOp s op).2.next_session_counter =
      if op.isOkCommit then (s.next_session_counter + 1) % U64
      else s.next_session_counter := by
  cases op with
  | buyer_commit b sl a p c t =>
    simp only [applyOp, EngineState.buyer_commit, Op.isOkCommit]
    by_cases ht : trimIsEmpty t = true <;> simp [ht]
  | seller_accept oid t =>
    simp only [applyOp, EngineState.seller_accept, Op.isOkCommit]
    cases hfind : s.findEscrow? oid
    · simp [hfind]
    · simp only [hfind]
      split_ifs <;> simp_all
  | seller_fulfill oid t =>
    simp only [applyOp, EngineState.seller_fulfill, Op.isOkCommit]
    cases hfind : s.findEscrow? oid
    · simp [hfind]
    · simp only [hfind]
      split_ifs <;> simp_all [create_receipt_stub_counter]
  | seller_claim oid t =>
    simp only [applyOp, EngineState.seller_claim, Op.isOkCommit]
    cases hfind : s.findEscrow? oid
    · simp [hfind]
    · simp only [hfind]
      split_ifs <;> simp_all [finalize_receipt_counter]
  | seller_refund oid t =>
    simp only [applyOp, EngineState.seller_refund, Op.isOkCommit]
    cases hfind : s.findEscrow? oid
    · simp [hfind]
    · simp only [hfind]
      split_ifs <;> simp_all [finalize_receipt_counter]
  | buyer_withdraw oid t =>
    simp only [applyOp, EngineState.buyer_withdraw, Op.isOkCommit]
    cases hfind : s.findEscrow? oid
    · simp [hfind]
    · simp only [hfind]
      split_ifs <;> simp_all
  | timed_release oid =>
    simp only [applyOp, EngineState.timed_release, Op.isOkCommit]
    cases hfind : s.findEscrow? oid
    · simp [hfind]
    · simp only [hfind]
      split_ifs <;> simp_all [finalize_receipt_counter]
  | update_state oid =>
    simp only [applyOp, EngineState.update_state, Op.isOkCommit]
    cases hfind : s.findEscrow? oid
    · simp [hfind]
    · simp only [hfind]
      split
      · split_ifs <;> simp_all
      · rfl
  | advance_time secs => rfl

/-- Closed form of the commit-id trace: the `k`-th successful commit
returns `mkOrderId (c₀ + k)` where `c₀` is the counter at the start of
the run. -/
theorem runCommitIds_spec : ∀ (ops : List Op) (s : EngineState),
    runCommitIds s ops = (List.range (countOk ops)).map
      (fun i => mkOrderId (s.next_session_counter + i)) := by
  intro ops
  induction ops with
  | nil => intro s; rfl
  | cons op rest ih =>
    intro s
    by_cases hok : op.isOkCommit = true
    · cases op with
      | buyer_commit b sl a p c t =>
        have ht : trimIsEmpty t = false := by
          simpa [Op.isOkCommit] using hok
        have hcount : countOk (Op.buyer_commit b sl a p c t :: rest) =
            countOk rest + 1 := by
          simp [countOk, List.filter_cons, hok]
        have hc : (applyOp s (Op.buyer_commit b sl a p c t)).2.next_session_counter =
            (s.next_session_counter + 1) % U64 := by
          rw [counter_applyOp]
          simp [hok]
        simp only [runCommitIds, EngineState.buyer_commit, ht]
        rw [ih ((applyOp s (Op.buyer_commit b sl a p c t)).2), hc, hcount,
          List.range_succ_eq_map]
        simp only [List.map_cons, List.map_map, Nat.add_zero]
        refine List.cons_eq_cons.mpr ⟨rfl, ?_⟩
        refine List.map_congr_left (fun i hi => ?_)
        refine mkOrderId_congr ?_
        unfold U64
        omega
      | seller_accept oid t => simp [Op.isOkCommit] at hok
      | seller_fulfill oid t => simp [Op.isOkCommit] at hok
      | seller_claim oid t => simp [Op.isOkCommit] at hok
      | seller_refund oid t => simp [Op.isOkCommit] at hok
      | buyer_withdraw oid t => simp [Op.isOkCommit] at hok
      | timed_release oid => simp [Op.isOkCommit] at hok
      | update_state oid => simp [Op.isOkCommit] at hok
      | advance_time secs => simp [Op.isOkCommit] at hok
    · have hc : (applyOp s op).2.next_session_counter =
          s.next_session_counter := by
        rw [counter_applyOp]
        simp [hok]
      have hcount : countOk (op :: rest) = countOk rest := by
        simp [countOk, List.filter_cons, hok]
      have htail : runCommitIds s (op :: rest) =
          runCommitIds (applyOp s op).2 rest := by
        cases op with
        | buyer_commit b sl a p c t =>
          have ht : trimIsEmpty t = true := by
            by_contra hfalse
            exact hok (by simp [Op.isOkCommit, hfalse])
          simp [runCommitIds, EngineState.buyer_commit, ht]
        | seller_accept oid t => rfl
        | seller_fulfill oid t => rfl
        | seller_claim oid t => rfl
        | seller_refund oid t => rfl
        | buyer_withdraw oid t => rfl
        | timed_release oid => rfl
        | update_state oid => rfl
        | advance_time secs => rfl
      rw [htail, ih ((applyOp s op).2), hc, hcount]

/-- 65537 identical successful commits on one engine. -/
def c4Ops : List Op :=
  List.replicate 65537
    (Op.buyer_commit "buyer" "seller" 1 PaymentProfile.pizza_delivery 1 "txA")

/-- Counterexample to C4.  `generate_order_id` writes only the two low
bytes of the counter into the 32-byte id, so the 1st and the 65537th
successful `buyer_commit` return the same order id: the sequence of
65537 commits has non-distinct ids. -/
theorem C4_counterexample :
    ¬ (runCommitIds (EngineState.new 1 12 1000) c4Ops).Pairwise
      (fun a b => a ≠ b) := by
  intro hpw
  rw [runCommitIds_spec] at hpw
  have hcount : countOk c4Ops = 65537 := by
    have : ∀ n, countOk (List.replicate n
        (Op.buyer_commit "buyer" "seller" 1
          PaymentProfile.pizza_delivery 1 "txA")) = n := by
      intro n
      induction n with
      | zero => rfl
      | succ k ih =>
        simp only [List.replicate_succ, countOk, List.filter_cons] at ih ⊢
        rw [if_pos (by decide)]
        simpa using ih
    exact this 65537
  rw [hcount] at hpw
  rw [List.pairwise_map] at hpw
  have hlen : (List.range 65537).length = 65537 := List.length_range 65537
  have h0 : (0 : Nat) < (List.range 65537).length := by rw [hlen]; decide
  have h1 : (65536 : Nat) < (List.range 65537).length := by rw [hlen]; decide
  have hrel := List.pairwise_iff_getElem.mp hpw 0 65536 h0 h1 (by decide)
  rw [List.getElem_range, List.getElem_range] at hrel
  exact hrel (by decide)

/-- C4 amended: the order ids returned by successful `buyer_commit`s on
a single engine are pairwise distinct for sequences of at most 65536
successful commits; beyond that the two-byte counter encoding wraps. -/
theorem C4_order_ids_distinct (chain interval genesis : Nat)
    (ops : List Op) (hcount : countOk ops ≤ 65536) :
    (runCommitIds (EngineState.new chain interval genesis) ops).Pairwise
      (fun a b => a ≠ b) := by
  rw [runCommitIds_spec]
  rw [List.pairwise_map]
  refine List.Pairwise.imp_of_mem ?_ (List.pairwise_lt_range _)
  intro a b ha hb hlt heq
  rw [List.mem_range] at ha hb
  have ha' : a < 65536 := lt_of_lt_of_le ha hcount
  have hb' : b < 65536 := lt_of_lt_of_le hb hcount
  simp only [mkOrderId, EngineState.new, List.cons.injEq] at heq
  obtain ⟨hbyte0, hbyte1, -⟩ := heq
  omega

/-- Witness for C4 amended: the single commit of the happy path has a
successful-commit count within the bound, and its id list is pairwise
distinct. -/
theorem C4_order_ids_distinct_witness :
    countOk happyOps ≤ 65536 ∧
    (runCommitIds (EngineState.new 1 12 1000) happyOps).Pairwise
      (fun a b => a ≠ b) :=
  ⟨by decide, C4_order_ids_distinct 1 12 1000 happyOps (by decide)⟩

/-! ## C8: derived block height -/

/-- Counterexample to C8.  With `block_interval_secs = 10` and
`genesis_unix = 0`, two `advance_time 5` calls leave the height at 1,
while the claimed formula `genesis_block + (unix − genesis_unix) /
interval` gives 2: the height depends on how the advance is split. -/
theorem C8_counterexample :
    (((EngineState.new 1 10 0).advance_time 5).advance_time
        5).current_block_height ≠
      1 + ((((EngineState.new 1 10 0).advance_time 5).advance_time
        5).current_unix - 0) /
        (((EngineState.new 1 10 0).advance_time 5).advance_time
          5).block_interval_secs := by decide

/-- Auxiliary: the block height accumulates the per-call floors. -/
theorem height_foldl (interval : Nat) : ∀ (advs : List Nat)
    (s : EngineState), s.block_interval_secs = interval →
    s.current_block_height < U64 →
    (advs.foldl EngineState.advance_time s).current_block_height =
      (s.current_block_height +
        (advs.map (fun x => x / interval)).sum) % U64 := by
  intro advs
  induction advs with
  | nil =>
    intro s hint hlt
    simpa using (Nat.mod_eq_of_lt hlt).symm
  | cons a rest ih =>
    intro s hint hlt
    have hstep : (s.advance_time a).current_block_height =
        (s.current_block_height + a / interval) % U64 := by
      simp [EngineState.advance_time, hint]
    have hint' : (s.advance_time a).block_interval_secs = interval := hint
    have hlt' : (s.advance_time a).current_block_height < U64 := by
      rw [hstep]
      exact Nat.mod_lt _ (by unfold U64; positivity)
    simp only [List.foldl_cons]
    rw [ih _ hint' hlt', hstep, List.map_cons, List.sum_cons]
    unfold U64
    omega

/-- C8 amended: for an engine with positive block interval, after any
sequence of `advance_time` calls the block height is the construction
height 1 plus the SUM of `floor(secsᵢ / interval)` over the calls (mod
`2^64`) — it depends on how the elapsed time is split into calls, not
only on the total. -/
theorem C8_block_height_per_call_sum (chain interval genesis : Nat)
    (_hpos : 0 < interval) (advs : List Nat) :
    (advs.foldl EngineState.advance_time
      (EngineState.new chain interval genesis)).current_block_height =
      (1 + (advs.map (fun x => x / interval)).sum) % U64 := by
  have h := height_foldl interval advs (EngineState.new chain interval genesis)
    rfl (by unfold EngineState.new U64; norm_num)
  simpa [EngineState.new] using h

/-- Witness for C8 amended: the split `advance 5; advance 5` with
interval 10 yields height `(1 + 0 + 0) % 2^64 = 1`. -/
theorem C8_block_height_per_call_sum_witness :
    0 < 10 ∧
    ([5, 5].foldl EngineState.advance_time
      (EngineState.new 1 10 0)).current_block_height =
      (1 + ([5, 5].map (fun x => x / 10)).sum) % U64 :=
  ⟨by decide, C8_block_height_per_call_sum 1 10 0 (by decide) [5, 5]⟩

/-! ## C7: deadline arithmetic -/

/-- The spec's saturating `u64` addition, for comparison with the
code's actual deadline arithmetic. -/
def satAdd64 (a b : Nat) : Nat := min (a + b) (U64 - 1)

/-- Counterexample to C7.  A profile with
`acceptance_window_secs = u64::MAX` committed at mono 1: the code's
deadline is the wrapping sum 0, not the saturating u64::MAX — the
addition is not saturating (in a debug build the Rust `+` would panic;
in release it wraps). -/
theorem C7_counterexample :
    (Escrow.new [] "b" "s" 1
      { timing := { acceptance_window_secs := U64 - 1,
                    fulfillment_window_secs := 0,
                    claim_window_secs := 0 },
        allows_timed_release := false,
        enables_late_discount := false,
        late_discount_pct := 0,
        discount_expiration_days := 0 } 1 "t" 1).acceptance_deadline_mono
      = 0 ∧
    satAdd64 1 (U64 - 1) = U64 - 1 ∧ (0 : Nat) ≠ U64 - 1 := by
  refine ⟨?_, ?_, by unfold U64; omega⟩
  · show (1 + (U64 - 1)) % U64 = 0
    unfold U64
    omega
  · unfold satAdd64 U64
    omega

/-- C7 amended: the elapsed-time check in `timed_release` uses
saturating subtraction (a clock not past the fulfillment mono yields
elapsed 0 and a clean "claim window not expired" error, never a panic),
but the acceptance deadline formed at `buyer_commit` is a plain wrapping
`u64` addition: on boundary inputs with `mono + window ≥ 2^64` the
stored deadline is strictly below the commit mono instead of
saturating. -/
theorem C7_deadline_arithmetic :
    (∀ (oid : OrderId) (b sl : String) (a : Nat) (p : PaymentProfile)
        (c : Nat) (t : String) (m : Nat),
      m < U64 → p.timing.acceptance_window_secs < U64 →
      m + p.timing.acceptance_window_secs ≥ U64 → 0 < m →
      (Escrow.new oid b sl a p c t m).acceptance_deadline_mono < m) ∧
    (∀ (s : EngineState) (oid : OrderId) (e : Escrow) (fm : Nat),
      s.findEscrow? oid = some e →
      e.profile.allows_timed_release = true →
      (e.state = EscrowState.SellerFulfilled ∨
        e.state = EscrowState.FulfillmentExpired) →
      e.fulfillment_mono = some fm →
      s.current_mono ≤ fm →
      0 < e.profile.timing.claim_window_secs →
      (s.timed_release oid).1 = Except.error "claim window not expired" ∧
      (s.timed_release oid).2 = s) := by
  constructor
  · intro oid b sl a p c t m hm hw hsum hmpos
    show (m + p.timing.acceptance_window_secs) % U64 < m
    unfold U64 at hm hw hsum ⊢
    omega
  · intro s oid e fm hfind hallow hstate hfm hle hwin
    have hstate' : ¬(e.state ≠ EscrowState.SellerFulfilled ∧
        e.state ≠ EscrowState.FulfillmentExpired) := by
      rcases hstate with hs | hs <;> simp [hs]
    have helapsed : s.current_mono - e.fulfillment_mono.getD 0 <
        e.profile.timing.claim_window_secs := by
      rw [hfm]
      simp only [Option.getD_some]
      omega
    constructor <;>
      · simp only [EngineState.timed_release, hfind]
        rw [if_neg (by simp [hallow]), if_neg hstate', if_pos helapsed]

/-- A freshly fulfilled pizza-profile escrow (no time has passed since
fulfillment). -/
def sC7fulfilled : EngineState :=
  run (EngineState.new 1 12 1000)
    [Op.buyer_commit "buyer" "seller" 100 PaymentProfile.pizza_delivery 1 "txA",
     Op.seller_accept oid1 "txB",
     Op.seller_fulfill oid1 "txC"]

/-- The escrow of `sC7fulfilled`. -/
def c7Escrow : Escrow := (sC7fulfilled.findEscrow? oid1).getD defaultEscrow

/-- Witness for C7 amended: the boundary commit at mono 1 with window
`u64::MAX` wraps below the commit mono, and a fresh fulfillment with a
positive claim window makes `timed_release` fail cleanly. -/
theorem C7_deadline_arithmetic_witness :
    ((Escrow.new [] "b" "s" 1
      { timing := { acceptance_window_secs := U64 - 1,
                    fulfillment_window_secs := 0,
                    claim_window_secs := 0 },
        allows_timed_release := false,
        enables_late_discount := false,
        late_discount_pct := 0,
        discount_expiration_days := 0 } 1 "t" 1).acceptance_deadline_mono
      < 1) ∧
    ((sC7fulfilled.timed_release oid1).1 =
      Except.error "claim window not expired" ∧
    (sC7fulfilled.timed_release oid1).2 = sC7fulfilled) := by
  constructor
  · exact C7_deadline_arithmetic.1 [] "b" "s" 1 _ 1 "t" 1
      (by decide) (by decide) (by decide) (by decide)
  · exact C7_deadline_arithmetic.2 sC7fulfilled oid1 c7Escrow 0
      rfl rfl (Or.inl rfl) rfl (by decide) (by decide)

/-! ## C6: the auto-claim txid format -/

/-- Shape of a successful `finalize_receipt`: the last stub for the
order is rewritten by `finalizeUpd`, everything else is untouched. -/
theorem finalize_receipt_ok_shape (s : EngineState) (oid : OrderId)
    (rb : Bool) {e : Escrow} (hfind : s.findEscrow? oid = some e)
    (hany : (s.receipts.any (fun m => m.session_id == oid)) = true) :
    ∃ l₁ m l₂, s.receipts = l₁ ++ m :: l₂ ∧ (m.session_id == oid) = true ∧
      (l₂.any (fun m => m.session_id == oid)) = false ∧
      (s.finalize_receipt oid rb).1 = Except.ok () ∧
      (s.finalize_receipt oid rb).2 =
        { s with receipts := l₁ ++ finalizeUpd s e rb m :: l₂ } := by
  obtain ⟨l₁, m, l₂, hsplit, hm, hl₂, hupd⟩ :=
    updateLastR_decomp (fun m => m.session_id == oid) (finalizeUpd s e rb)
      hany
  refine ⟨l₁, m, l₂, hsplit, hm, hl₂, ?_, ?_⟩
  · simp [EngineState.finalize_receipt, hfind, hany]
  · simp [EngineState.finalize_receipt, hfind, hany, hupd]

/-- The engine state just before the spec §8 timed-release scenario's
final step: commit, accept, fulfill, `advance(3601)`. -/
def sC6pre : EngineState :=
  run (EngineState.new 1 12 1000)
    [Op.buyer_commit "buyer" "seller" 100 PaymentProfile.pizza_delivery 1 "txA",
     Op.seller_accept oid1 "txB",
     Op.seller_fulfill oid1 "txC",
     Op.advance_time 3601]

/-- Counterexample to C6.  After commit, accept, fulfill and
`advance(3601)`, `timed_release` records the txid
`auto_claim_txid_3601` — the string between `auto_claim_` and the
monotonic clock is `txid_`, so the txid is NOT `auto_claim_<mono>`. -/
theorem C6_counterexample :
    ((sC6pre.timed_release oid1).2.findEscrow? oid1).map
        (fun e => e.seller_claim_txid) =
      some (some ("auto_claim_txid_" ++ Nat.repr sC6pre.current_mono)) ∧
    "auto_claim_txid_" ++ Nat.repr sC6pre.current_mono ≠
      "auto_claim_" ++ Nat.repr sC6pre.current_mono := by
  constructor
  · rfl
  · decide

/-- The escrow lookup is unchanged by `finalize_receipt`. -/
theorem finalize_receipt_find (s₁ : EngineState) (oid oid' : OrderId)
    (rb : Bool) :
    EngineState.findEscrow? (s₁.finalize_receipt oid rb).2 oid' =
      s₁.findEscrow? oid' := by
  unfold EngineState.findEscrow?
  rw [finalize_receipt_escrows]

/-- After a successful non-refund finalization, some receipt for the
order carries the escrow's claim txid. -/
theorem finalize_receipt_mem_claim (s₁ : EngineState) (oid : OrderId)
    {e₁ : Escrow} (hfind₁ : s₁.findEscrow? oid = some e₁)
    (hany : (s₁.receipts.any (fun m => m.session_id == oid)) = true) :
    ∃ m, m ∈ (s₁.finalize_receipt oid false).2.receipts ∧
      m.session_id = oid ∧ m.seller_claim_txid = e₁.seller_claim_txid := by
  obtain ⟨l₁, m, l₂, hsplit, hm, hl₂, hfok, hffin⟩ :=
    finalize_receipt_ok_shape s₁ oid false hfind₁ hany
  refine ⟨finalizeUpd s₁ e₁ false m, ?_, ?_, ?_⟩
  · rw [hffin]
    simp
  · simpa [finalizeUpd] using hm
  · simp [finalizeUpd]

/-- C6 amended: for every successful `timed_release`, the claim txid
recorded on the escrow and on the finalized receipt is the string
`auto_claim_txid_` immediately followed by the decimal rendering of the
engine monotonic clock at release time (format `auto_claim_txid_<mono>`,
from `format!("auto_claim_txid_{}", now.mono)`). -/
theorem C6_auto_claim_txid_format (s : EngineState) (oid : OrderId)
    (amt : Nat) (s₂ : EngineState)
    (hok : s.timed_release oid = (Except.ok amt, s₂)) :
    (∃ e', s₂.findEscrow? oid = some e' ∧
      e'.seller_claim_txid =
        some ("auto_claim_txid_" ++ Nat.repr s.current_mono)) ∧
    (∃ m, m ∈ s₂.receipts ∧ m.session_id = oid ∧
      m.seller_claim_txid =
        some ("auto_claim_txid_" ++ Nat.repr s.current_mono)) := by
  simp only [EngineState.timed_release] at hok
  cases hfind : s.findEscrow? oid with
  | none =>
    simp only [hfind] at hok
    simp at hok
  | some e =>
    simp only [hfind] at hok
    split_ifs at hok with h1 h2 h3
    · simp at hok
    · simp at hok
    · simp at hok
    · rw [Prod.mk.injEq] at hok
      obtain ⟨hr1, hs2⟩ := hok
      have hfind₁ : (EngineState.findEscrow?
          { s with
            escrows := updateFirst s.escrows oid
                (timedUpd s.current_block_height
                  ("auto_claim_txid_" ++ Nat.repr s.current_mono)) } oid) =
          some (timedUpd s.current_block_height
            ("auto_claim_txid_" ++ Nat.repr s.current_mono) e) :=
        updateFirst_escrows_preserve
          (timedUpd s.current_block_height
            ("auto_claim_txid_" ++ Nat.repr s.current_mono))
          (fun x => rfl) hfind
      by_cases hany : (s.receipts.any (fun m => m.session_id == oid)) = true
      · have hfound : s₂.findEscrow? oid =
            some (timedUpd s.current_block_height
              ("auto_claim_txid_" ++ Nat.repr s.current_mono) e) := by
          rw [← hs2, finalize_receipt_find]
          exact hfind₁
        obtain ⟨m, hmem, hsess, hclaim⟩ :=
          finalize_receipt_mem_claim _ oid hfind₁ hany
        rw [hs2] at hmem
        constructor
        · exact ⟨_, hfound, rfl⟩
        · refine ⟨m, hmem, hsess, ?_⟩
          rw [hclaim]
          simp [timedUpd]
      · exfalso
        have hfail : (EngineState.finalize_receipt
            { s with
              escrows := updateFirst s.escrows oid
                  (timedUpd s.current_block_height
                    ("auto_claim_txid_" ++ Nat.repr s.current_mono)) } oid
            false).1 = Except.error "receipt stub not found" := by
          simp only [EngineState.finalize_receipt, hfind₁]
          rw [if_neg (by simpa using hany)]
        rw [hfail] at hr1
        simp [Except.map] at hr1

/-- Witness for C6 amended: the concrete timed release of the §8
scenario records `auto_claim_txid_3601` on escrow and receipt. -/
theorem C6_auto_claim_txid_format_witness :
    (sC6pre.timed_release oid1 =
      (Except.ok 100, (sC6pre.timed_release oid1).2)) ∧
    ((∃ e', (sC6pre.timed_release oid1).2.findEscrow? oid1 = some e' ∧
      e'.seller_claim_txid =
        some ("auto_claim_txid_" ++ Nat.repr sC6pre.current_mono)) ∧
    (∃ m, m ∈ (sC6pre.timed_release oid1).2.receipts ∧
      m.session_id = oid1 ∧
      m.seller_claim_txid =
        some ("auto_claim_txid_" ++ Nat.repr sC6pre.current_mono))) := by
  have hok : sC6pre.timed_release oid1 =
      (Except.ok 100, (sC6pre.timed_release oid1).2) := by
    have h1 : (sC6pre.timed_release oid1).1 = Except.ok 100 := rfl
    exact Prod.ext h1 rfl
  exact ⟨hok, C6_auto_claim_txid_format sC6pre oid1 100 _ hok⟩

/-! ## C5: timed_release vs seller_claim -/

/-- `updateLastR` on an explicitly split list: the last match is
rewritten, for any `f`. -/
theorem updateLastR_eq (p : ReceiptMetadata → Bool)
    (f : ReceiptMetadata → ReceiptMetadata) :
    ∀ (l₁ : List ReceiptMetadata) {m : ReceiptMetadata}
      {l₂ : List ReceiptMetadata}, p m = true → l₂.any p = false →
      updateLastR (l₁ ++ m :: l₂) p f = l₁ ++ f m :: l₂ := by
  intro l₁
  induction l₁ with
  | nil =>
    intro m l₂ hm hl₂
    simp only [List.nil_append, updateLastR, hl₂]
    rw [if_neg (by simp), if_pos hm]
  | cons a l₁ ih =>
    intro m l₂ hm hl₂
    have hany : ((l₁ ++ m :: l₂).any p) = true := by
      refine List.any_eq_true.mpr ⟨m, ?_, hm⟩
      simp
    simp only [List.cons_append, updateLastR, List.append_eq]
    rw [if_pos hany, ih hm hl₂]

/-- Mapping a function over `updateFirst` results that agree on the
updated element. -/
theorem map_updateFirst_congr {l : List Escrow} {oid : OrderId}
    (g f1 f2 : Escrow → Escrow)
    (h : ∀ x, (x.order_id == oid) = true → g (f1 x) = g (f2 x)) :
    (updateFirst l oid f1).map g = (updateFirst l oid f2).map g := by
  induction l with
  | nil => rfl
  | cons e rest ih =>
    simp only [updateFirst]
    by_cases he : (e.order_id == oid) = true
    · rw [if_pos he, if_pos he]
      simp [h e he]
    · rw [if_neg he, if_neg he]
      simp [ih]

/-- Characterization of a successful `seller_claim` in terms of the
pre-state and the location of the most recent stub. -/
theorem seller_claim_ok_char (s : EngineState) (oid : OrderId)
    (tx : String) {e : Escrow} {l₁ : List ReceiptMetadata}
    {m : ReceiptMetadata} {l₂ : List ReceiptMetadata}
    (hfind : s.findEscrow? oid = some e)
    (hstate : e.state = EscrowState.SellerFulfilled ∨
      e.state = EscrowState.FulfillmentExpired)
    (htx : trimIsEmpty tx = false)
    (hsplit : s.receipts = l₁ ++ m :: l₂)
    (hm : (m.session_id == oid) = true)
    (hl₂ : (l₂.any (fun x => x.session_id == oid)) = false) :
    s.seller_claim oid tx = (Except.ok e.amount,
      { s with
        escrows := updateFirst s.escrows oid
            (claimUpd s.current_mono s.current_block_height tx)
        receipts := l₁ ++ finalizeUpd s
            (claimUpd s.current_mono s.current_block_height tx e) false m
            :: l₂ }) := by
  have hstate' : ¬(e.state ≠ EscrowState.SellerFulfilled ∧
      e.state ≠ EscrowState.FulfillmentExpired) := by
    rcases hstate with hs | hs <;> simp [hs]
  have hfind₁ : (EngineState.findEscrow?
      { s with
        escrows := updateFirst s.escrows oid
            (claimUpd s.current_mono s.current_block_height tx) } oid) =
      some (claimUpd s.current_mono s.current_block_height tx e) :=
    updateFirst_escrows_preserve
      (claimUpd s.current_mono s.current_block_height tx) (fun x => rfl) hfind
  have hany : (s.receipts.any (fun x => x.session_id == oid)) = true := by
    rw [hsplit]
    refine List.any_eq_true.mpr ⟨m, ?_, hm⟩
    simp
  have hfeq : finalizeUpd
      { s with
        escrows := updateFirst s.escrows oid
            (claimUpd s.current_mono s.current_block_height tx) } =
      finalizeUpd s :=
    funext (fun a => funext (fun b => funext (fun c => rfl)))
  have hupd : updateLastR s.receipts (fun x => x.session_id == oid)
      (finalizeUpd s
        (claimUpd s.current_mono s.current_block_height tx e) false) =
      l₁ ++ finalizeUpd s
        (claimUpd s.current_mono s.current_block_height tx e) false m
        :: l₂ := by
    rw [hsplit]
    exact updateLastR_eq _ _ l₁ hm hl₂
  simp only [EngineState.seller_claim, hfind]
  rw [if_neg hstate', if_neg (by simp [htx])]
  simp only [EngineState.finalize_receipt, hfind₁]
  rw [if_pos (by simpa using hany)]
  rw [hfeq, hupd]
  rfl

/-- Characterization of a successful `timed_release` in terms of the
pre-state and the location of the most recent stub.  Unlike
`seller_claim`, the escrow's `settlement_mono` is left untouched. -/
theorem timed_release_ok_char (s : EngineState) (oid : OrderId)
    {e : Escrow} {l₁ : List ReceiptMetadata} {m : ReceiptMetadata}
    {l₂ : List ReceiptMetadata}
    (hfind : s.findEscrow? oid = some e)
    (hallow : e.profile.allows_timed_release = true)
    (hstate : e.state = EscrowState.SellerFulfilled ∨
      e.state = EscrowState.FulfillmentExpired)
    (hwin : e.profile.timing.claim_window_secs ≤
      s.current_mono - e.fulfillment_mono.getD 0)
    (hsplit : s.receipts = l₁ ++ m :: l₂)
    (hm : (m.session_id == oid) = true)
    (hl₂ : (l₂.any (fun x => x.session_id == oid)) = false) :
    s.timed_release oid = (Except.ok e.amount,
      { s with
        escrows := updateFirst s.escrows oid
            (timedUpd s.current_block_height
              ("auto_claim_txid_" ++ Nat.repr s.current_mono))
        receipts := l₁ ++ finalizeUpd s
            (timedUpd s.current_block_height
              ("auto_claim_txid_" ++ Nat.repr s.current_mono) e) false m
            :: l₂ }) := by
  have hstate' : ¬(e.state ≠ EscrowState.SellerFulfilled ∧
      e.state ≠ EscrowState.FulfillmentExpired) := by
    rcases hstate with hs | hs <;> simp [hs]
  have hfind₁ : (EngineState.findEscrow?
      { s with
        escrows := updateFirst s.escrows oid
            (timedUpd s.current_block_height
              ("auto_claim_txid_" ++ Nat.repr s.current_mono)) } oid) =
      some (timedUpd s.current_block_height
        ("auto_claim_txid_" ++ Nat.repr s.current_mono) e) :=
    updateFirst_escrows_preserve
      (timedUpd s.current_block_height
        ("auto_claim_txid_" ++ Nat.repr s.current_mono)) (fun x => rfl) hfind
  have hany : (s.receipts.any (fun x => x.session_id == oid)) = true := by
    rw [hsplit]
    refine List.any_eq_true.mpr ⟨m, ?_, hm⟩
    simp
  have hfeq : finalizeUpd
      { s with
        escrows := updateFirst s.escrows oid
            (timedUpd s.current_block_height
              ("auto_claim_txid_" ++ Nat.repr s.current_mono)) } =
      finalizeUpd s :=
    funext (fun a => funext (fun b => funext (fun c => rfl)))
  have hupd : updateLastR s.receipts (fun x => x.session_id == oid)
      (finalizeUpd s
        (timedUpd s.current_block_height
          ("auto_claim_txid_" ++ Nat.repr s.current_mono) e) false) =
      l₁ ++ finalizeUpd s
        (timedUpd s.current_block_height
          ("auto_claim_txid_" ++ Nat.repr s.current_mono) e) false m
        :: l₂ := by
    rw [hsplit]
    exact updateLastR_eq _ _ l₁ hm hl₂
  simp only [EngineState.timed_release, hfind]
  rw [if_neg (by simp [hallow]), if_neg hstate', if_neg (by omega)]
  simp only [EngineState.finalize_receipt, hfind₁]
  rw [if_pos (by simpa using hany)]
  rw [hfeq, hupd]
  rfl

/-- Erase, for one order, the fields in which `seller_claim` and
`timed_release` legitimately differ: the claim txid on the escrow and
the finalized receipt, and the escrow's `settlement_mono`. -/
def maskSettle (s : EngineState) (oid : OrderId) : EngineState :=
  { s with
    escrows := s.escrows.map (fun e =>
      if e.order_id == oid then
        { e with seller_claim_txid := none, settlement_mono := none }
      else e)
    receipts := s.receipts.map (fun m =>
      if m.session_id == oid then { m with seller_claim_txid := none }
      else m) }

/-- Counterexample to C5.  On the §8 timed-release scenario state,
`seller_claim` records `settlement_mono = Some 3601` on the escrow while
`timed_release` leaves it `None`: the two operations do NOT perform the
same escrow mutations up to the claim-txid value. -/
theorem C5_counterexample :
    ((sC6pre.seller_claim oid1 "txD").2.findEscrow? oid1).map
        (fun e => e.settlement_mono) = some (some 3601) ∧
    ((sC6pre.timed_release oid1).2.findEscrow? oid1).map
        (fun e => e.settlement_mono) = some none ∧
    (some (some (3601 : Nat)) : Option (Option Nat)) ≠ some none := by
  exact ⟨rfl, rfl, by decide⟩

/-- C5 amended: for an escrow in a claimable state whose claim window
has elapsed, whose profile allows timed release, whose settlement mono
is unset, and which has a receipt stub, `timed_release` and
`seller_claim` both succeed with the same returned amount and the same
final state `SellerClaimed`, and their post-states agree except for the
claim-txid values (escrow and receipt) and the escrow's
`settlement_mono`, which `seller_claim` sets and `timed_release` leaves
unset. -/
theorem C5_timed_release_equiv (s : EngineState) (oid : OrderId)
    (tx : String) (e : Escrow)
    (hfind : s.findEscrow? oid = some e)
    (hallow : e.profile.allows_timed_release = true)
    (hstate : e.state = EscrowState.SellerFulfilled ∨
      e.state = EscrowState.FulfillmentExpired)
    (hwin : e.profile.timing.claim_window_secs ≤
      s.current_mono - e.fulfillment_mono.getD 0)
    (hsett : e.settlement_mono = none)
    (hany : (s.receipts.any (fun x => x.session_id == oid)) = true)
    (htx : trimIsEmpty tx = false) :
    (s.seller_claim oid tx).1 = Except.ok e.amount ∧
    (s.timed_release oid).1 = Except.ok e.amount ∧
    maskSettle (s.seller_claim oid tx).2 oid =
      maskSettle (s.timed_release oid).2 oid ∧
    ((s.seller_claim oid tx).2.findEscrow? oid).map Escrow.state =
      some EscrowState.SellerClaimed ∧
    ((s.timed_release oid).2.findEscrow? oid).map Escrow.state =
      some EscrowState.SellerClaimed := by
  obtain ⟨l₁, m, l₂, hsplit, hm, hl₂, -⟩ :=
    updateLastR_decomp (fun x => x.session_id == oid) id hany
  have hc := seller_claim_ok_char s oid tx hfind hstate htx hsplit hm hl₂
  have ht := timed_release_ok_char s oid hfind hallow hstate hwin hsplit hm hl₂
  have hfc := updateFirst_escrows_preserve
    (claimUpd s.current_mono s.current_block_height tx) (fun x => rfl) hfind
  have hft := updateFirst_escrows_preserve
    (timedUpd s.current_block_height
      ("auto_claim_txid_" ++ Nat.repr s.current_mono)) (fun x => rfl) hfind
  refine ⟨by rw [hc], by rw [ht], ?_, ?_, ?_⟩
  · rw [hc, ht]
    have hesc : (updateFirst s.escrows oid
        (claimUpd s.current_mono s.current_block_height tx)).map (fun e =>
          if e.order_id == oid then
            { e with seller_claim_txid := none, settlement_mono := none }
          else e) =
        (updateFirst s.escrows oid
          (timedUpd s.current_block_height
            ("auto_claim_txid_" ++ Nat.repr s.current_mono))).map (fun e =>
          if e.order_id == oid then
            { e with seller_claim_txid := none, settlement_mono := none }
          else e) := by
      refine map_updateFirst_congr _ _ _ (fun x hx => ?_)
      simp [claimUpd, timedUpd, hx]
    have hrec : (l₁ ++ finalizeUpd s
        (claimUpd s.current_mono s.current_block_height tx e) false m
        :: l₂).map (fun m =>
          if m.session_id == oid then { m with seller_claim_txid := none }
          else m) =
        (l₁ ++ finalizeUpd s
          (timedUpd s.current_block_height
            ("auto_claim_txid_" ++ Nat.repr s.current_mono) e) false m
          :: l₂).map (fun m =>
          if m.session_id == oid then { m with seller_claim_txid := none }
          else m) := by
      simp only [List.map_append, List.map_cons]
      have hmid : (if (finalizeUpd s
          (claimUpd s.current_mono s.current_block_height tx e) false
          m).session_id == oid then
            { finalizeUpd s
              (claimUpd s.current_mono s.current_block_height tx e) false m
              with seller_claim_txid := none }
          else finalizeUpd s
            (claimUpd s.current_mono s.current_block_height tx e) false m) =
          (if (finalizeUpd s
            (timedUpd s.current_block_height
              ("auto_claim_txid_" ++ Nat.repr s.current_mono) e) false
            m).session_id == oid then
            { finalizeUpd s
              (timedUpd s.current_block_height
                ("auto_claim_txid_" ++ Nat.repr s.current_mono) e) false m
              with seller_claim_txid := none }
          else finalizeUpd s
            (timedUpd s.current_block_height
              ("auto_claim_txid_" ++ Nat.repr s.current_mono) e) false m) := by
        simp [finalizeUpd, claimUpd, timedUpd, hm, hsett]
      rw [hmid]
    simp only [maskSettle, hesc, hrec]
  · rw [hc]
    show ((updateFirst s.escrows oid
      (claimUpd s.current_mono s.current_block_height tx)).find?
        (fun e => e.order_id == oid)).map Escrow.state =
      some EscrowState.SellerClaimed
    rw [hfc]
    simp [claimUpd]
  · rw [ht]
    show ((updateFirst s.escrows oid
      (timedUpd s.current_block_height
        ("auto_claim_txid_" ++ Nat.repr s.current_mono))).find?
        (fun e => e.order_id == oid)).map Escrow.state =
      some EscrowState.SellerClaimed
    rw [hft]
    simp [timedUpd]

/-- The escrow of the timed-release scenario state `sC6pre`. -/
def c5Escrow : Escrow := (sC6pre.findEscrow? oid1).getD defaultEscrow

/-- Witness for C5 amended, on the §8 timed-release scenario state. -/
theorem C5_timed_release_equiv_witness :
    (sC6pre.seller_claim oid1 "txD").1 = Except.ok c5Escrow.amount ∧
    (sC6pre.timed_release oid1).1 = Except.ok c5Escrow.amount ∧
    maskSettle (sC6pre.seller_claim oid1 "txD").2 oid1 =
      maskSettle (sC6pre.timed_release oid1).2 oid1 ∧
    ((sC6pre.seller_claim oid1 "txD").2.findEscrow? oid1).map Escrow.state =
      some EscrowState.SellerClaimed ∧
    ((sC6pre.timed_release oid1).2.findEscrow? oid1).map Escrow.state =
      some EscrowState.SellerClaimed :=
  C5_timed_release_equiv sC6pre oid1 "txD" c5Escrow rfl rfl (Or.inl rfl)
    (by decide) rfl rfl (by decide)

/-! ## C9: the TGP session transition contract -/

/-- The transition pairs the spec allows: the five forward edges, plus
`Errored` from any non-terminal state. -/
def allowedPair (s t : TGPState) : Prop :=
  (s = TGPState.Idle ∧ t = TGPState.QuerySent) ∨
  (s = TGPState.QuerySent ∧ t = TGPState.OfferReceived) ∨
  (s = TGPState.OfferReceived ∧ t = TGPState.AcceptSent) ∨
  (s = TGPState.AcceptSent ∧ t = TGPState.Finalizing) ∨
  (s = TGPState.Finalizing ∧ t = TGPState.Settled) ∨
  (t = TGPState.Errored ∧ s.is_terminal = false)

/-- C9: for a session that has not timed out, `transition(target)`
succeeds exactly on the allowed pairs; re-entering the same state yields
`AlreadyInState`; `Idle → Settled` yields `InvalidTransition`; any
transition out of a terminal state (to a different state) yields
`TerminalState`. -/
theorem C9_transition_contract (sess : TGPSession) (now : Nat)
    (target : TGPState) (hnt : sess.is_timed_out now = false) :
    (((sess.transition now target).1.isOk = true) ↔
      allowedPair sess.state target) ∧
    (target = sess.state →
      (sess.transition now target).1 =
        Except.error (TGPStateError.AlreadyInState target)) ∧
    (sess.state = TGPState.Idle → target = TGPState.Settled →
      (sess.transition now target).1 =
        Except.error (TGPStateError.InvalidTransition TGPState.Idle
          TGPState.Settled)) ∧
    (sess.state.is_terminal = true → target ≠ sess.state →
      (sess.transition now target).1 =
        Except.error (TGPStateError.TerminalState sess.state)) := by
  obtain ⟨sid, st, qid, ofid, cat, uat, tat⟩ := sess
  simp only [TGPSession.is_timed_out] at hnt
  refine ⟨?_, ?_, ?_, ?_⟩ <;>
    cases st <;> cases target <;>
      simp [TGPSession.transition, TGPSession.is_timed_out, hnt,
        TGPState.is_terminal, TGPState.can_transition_to, allowedPair,
        TGPState.timeout_seconds, Except.isOk, Except.toBool]

/-- Witness for C9: a fresh session (no timeout set) moving
`Idle → QuerySent` at time 0 succeeds. -/
theorem C9_transition_contract_witness :
    ((TGPSession.new "sess-w" 0).is_timed_out 0 = false) ∧
    ((TGPSession.new "sess-w" 0).transition 0
      TGPState.QuerySent).1.isOk = true := by
  have h := C9_transition_contract (TGPSession.new "sess-w" 0) 0
    TGPState.QuerySent rfl
  exact ⟨rfl, h.1.mpr (Or.inl ⟨rfl, rfl⟩)⟩

/-! ## C2: receipt creation and finalization -/

/-- The state after commit, accept, `advance(3601)` and TWO late
fulfillments of the same order (the late path leaves the state
`FulfillmentExpired`, which `can_fulfill` accepts again). -/
def sC2 : EngineState :=
  run (EngineState.new 1 12 1000)
    [Op.buyer_commit "buyer" "seller" 100 PaymentProfile.pizza_delivery 1 "txA",
     Op.seller_accept oid1 "txB",
     Op.advance_time 3601,
     Op.seller_fulfill oid1 "txC",
     Op.seller_fulfill oid1 "txD"]

/-- Counterexample to C2.  Two receipts exist for the single order after
a repeated late fulfill, and after settlement `get_receipt` returns the
FIRST stub — still unfinalized (settlement zero, no claim txid) — while
`finalize_receipt` rewrote the last one. -/
theorem C2_counterexample :
    ((sC2.receipts.filter (fun m => m.session_id == oid1)).length = 2) ∧
    (((sC2.seller_claim oid1 "txE").2.get_receipt oid1).map
      (fun m => (m.settlement_mono, m.seller_claim_txid)) =
      some (0, none)) := by
  exact ⟨rfl, rfl⟩

/-- `find?` over a split whose left part has no match. -/
theorem find?_append_middle {α : Type} (p : α → Bool) :
    ∀ (l₁ : List α) {m : α} {l₂ : List α}, l₁.any p = false →
      p m = true → (l₁ ++ m :: l₂).find? p = some m := by
  intro l₁
  induction l₁ with
  | nil =>
    intro m l₂ _ hm
    simp [List.find?, hm]
  | cons a l₁ ih =>
    intro m l₂ hany hm
    have ha : p a = false := by
      by_contra hcon
      rw [List.any_cons] at hany
      simp only [Bool.or_eq_false_iff] at hany
      exact hcon (by simp [hany.1])
    have hany' : l₁.any p = false := by
      rw [List.any_cons] at hany
      simp only [Bool.or_eq_false_iff] at hany
      exact hany.2
    simp [List.find?, ha, ih hany' hm]

/-- The shape shared by all successful settlements: exactly the most
recent receipt for the order is rewritten (same session id), everything
else is untouched; when it was the only receipt for the order,
`get_receipt` afterwards returns the rewritten receipt. -/
def SettleShape (s s₂ : EngineState) (oid : OrderId) : Prop :=
  ∃ l₁ m m' l₂, s.receipts = l₁ ++ m :: l₂ ∧ s₂.receipts = l₁ ++ m' :: l₂ ∧
    (m.session_id == oid) = true ∧ m'.session_id = m.session_id ∧
    (l₂.any (fun x => x.session_id == oid)) = false ∧
    ((l₁.any (fun x => x.session_id == oid)) = false →
      s₂.get_receipt oid = some m')

/-- Any settlement tail (escrow update then `finalize_receipt`) that
returns `ok` produces a `SettleShape`. -/
theorem settle_shape_generic (s : EngineState) (oid : OrderId) (rb : Bool)
    (f : Escrow → Escrow) (hf : ∀ x, (f x).order_id = x.order_id)
    {e : Escrow} (hfind : s.findEscrow? oid = some e) {amt0 amt : Nat}
    {s₂ : EngineState}
    (hr1 : ((EngineState.finalize_receipt
      { s with escrows := updateFirst s.escrows oid f } oid rb).1.map
      (fun _ => amt0)) = Except.ok amt)
    (hs2 : (EngineState.finalize_receipt
      { s with escrows := updateFirst s.escrows oid f } oid rb).2 = s₂) :
    SettleShape s s₂ oid := by
  have hfind₁ : (EngineState.findEscrow?
      { s with escrows := updateFirst s.escrows oid f } oid) =
      some (f e) := updateFirst_escrows_preserve f hf hfind
  by_cases hany : (s.receipts.any (fun x => x.session_id == oid)) = true
  · obtain ⟨l₁, m, l₂, hsplit, hm, hl₂, hfok, hffin⟩ :=
      finalize_receipt_ok_shape _ oid rb hfind₁ hany
    rw [hffin] at hs2
    refine ⟨l₁, m, finalizeUpd
      { s with escrows := updateFirst s.escrows oid f } (f e) rb m, l₂,
      hsplit, by rw [← hs2], hm, rfl, hl₂, ?_⟩
    intro hl₁
    have hfindm : ((l₁ ++ finalizeUpd
        { s with escrows := updateFirst s.escrows oid f } (f e) rb m
        :: l₂).find? (fun x => x.session_id == oid)) =
        some (finalizeUpd
          { s with escrows := updateFirst s.escrows oid f } (f e) rb m) :=
      find?_append_middle _ l₁ hl₁ (by simpa [finalizeUpd] using hm)
    show (s₂.receipts.find? (fun x => x.session_id == oid)) = _
    rw [← hs2]
    exact hfindm
  · exfalso
    have hfail : (EngineState.finalize_receipt
        { s with escrows := updateFirst s.escrows oid f } oid rb).1 =
        Except.error "receipt stub not found" := by
      simp only [EngineState.finalize_receipt, hfind₁]
      rw [if_neg (by simpa using hany)]
    rw [hfail] at hr1
    simp [Except.map] at hr1

/-- C2 amended: each successful `seller_fulfill` appends exactly one new
receipt stub for the order (so an order late-fulfilled repeatedly
accumulates several); each successful settlement (`seller_claim`,
`seller_refund`, `timed_release`) rewrites exactly the most recent
receipt for the order, leaving all others unchanged; and when the order
has exactly one receipt, `get_receipt` returns the finalized receipt
after settlement. -/
theorem C2_receipt_lifecycle :
    (∀ (s : EngineState) (oid : OrderId) (t : String) (s₂ : EngineState),
      s.seller_fulfill oid t = (Except.ok (), s₂) →
      ∃ m, s₂.receipts = s.receipts ++ [m] ∧ m.session_id = oid) ∧
    (∀ (s : EngineState) (oid : OrderId) (t : String) (amt : Nat)
       (s₂ : EngineState),
      s.seller_claim oid t = (Except.ok amt, s₂) → SettleShape s s₂ oid) ∧
    (∀ (s : EngineState) (oid : OrderId) (t : String) (amt : Nat)
       (s₂ : EngineState),
      s.seller_refund oid t = (Except.ok amt, s₂) → SettleShape s s₂ oid) ∧
    (∀ (s : EngineState) (oid : OrderId) (amt : Nat) (s₂ : EngineState),
      s.timed_release oid = (Except.ok amt, s₂) → SettleShape s s₂ oid) := by
  refine ⟨?_, ?_, ?_, ?_⟩
  · intro s oid t s₂ hok
    simp only [EngineState.seller_fulfill] at hok
    cases hfind : s.findEscrow? oid with
    | none => simp only [hfind] at hok; simp at hok
    | some e =>
      simp only [hfind] at hok
      split_ifs at hok with h1 h2
      · simp at hok
      · simp at hok
      · have hoid : e.order_id = oid := by
          have := List.find?_some hfind
          simpa using this
        simp only [EngineState.create_receipt_stub, EngineState.findEscrow?,
          updateFirst_escrows_preserve
            (fulfillUpd s.current_mono t
              (match e.fulfillment_deadline_mono with
               | some deadline => decide (s.current_mono > deadline)
               | none => false)) (fun x => rfl) hfind] at hok
        rw [Prod.mk.injEq] at hok
        refine ⟨stubUpd s
          (fulfillUpd s.current_mono t
            (match e.fulfillment_deadline_mono with
             | some deadline => decide (s.current_mono > deadline)
             | none => false) e)
          (match e.fulfillment_deadline_mono with
           | some deadline => decide (s.current_mono > deadline)
           | none => false), ?_, ?_⟩
        · rw [← hok.2]
          rfl
        · simp [stubUpd, fulfillUpd, hoid]
  · intro s oid t amt s₂ hok
    simp only [EngineState.seller_claim] at hok
    cases hfind : s.findEscrow? oid with
    | none => simp only [hfind] at hok; simp at hok
    | some e =>
      simp only [hfind] at hok
      split_ifs at hok with h1 h2
      · simp at hok
      · simp at hok
      · rw [Prod.mk.injEq] at hok
        exact settle_shape_generic s oid false
          (claimUpd s.current_mono s.current_block_height t)
          (fun x => rfl) hfind hok.1 hok.2
  · intro s oid t amt s₂ hok
    simp only [EngineState.seller_refund] at hok
    cases hfind : s.findEscrow? oid with
    | none => simp only [hfind] at hok; simp at hok
    | some e =>
      simp only [hfind] at hok
      split_ifs at hok with h1 h2
      · simp at hok
      · simp at hok
      · rw [Prod.mk.injEq] at hok
        exact settle_shape_generic s oid true
          (refundUpd s.current_mono s.current_block_height t)
          (fun x => rfl) hfind hok.1 hok.2
  · intro s oid amt s₂ hok
    simp only [EngineState.timed_release] at hok
    cases hfind : s.findEscrow? oid with
    | none => simp only [hfind] at hok; simp at hok
    | some e =>
      simp only [hfind] at hok
      split_ifs at hok with h1 h2 h3
      · simp at hok
      · simp at hok
      · simp at hok
      · rw [Prod.mk.injEq] at hok
        exact settle_shape_generic s oid false
          (timedUpd s.current_block_height
            ("auto_claim_txid_" ++ Nat.repr s.current_mono))
          (fun x => rfl) hfind hok.1 hok.2

/-- Witness for C2 amended: the happy-path fulfill appends its stub. -/
theorem C2_receipt_lifecycle_witness :
    (sC7fulfilled.seller_claim oid1 "txD" =
      (Except.ok 100, (sC7fulfilled.seller_claim oid1 "txD").2)) ∧
    SettleShape sC7fulfilled (sC7fulfilled.seller_claim oid1 "txD").2
      oid1 := by
  have hok : sC7fulfilled.seller_claim oid1 "txD" =
      (Except.ok 100, (sC7fulfilled.seller_claim oid1 "txD").2) := by
    have h1 : (sC7fulfilled.seller_claim oid1 "txD").1 = Except.ok 100 := rfl
    exact Prod.ext h1 rfl
  exact ⟨hok, C2_receipt_lifecycle.2.1 sC7fulfilled oid1 "txD" 100 _ hok⟩

/-! ## C10: late fulfillment followed by buyer withdrawal -/

theorem find?_append_left {α : Type} (p : α → Bool) :
    ∀ (l₁ : List α) (l₂ : List α) {x : α}, l₁.find? p = some x →
      (l₁ ++ l₂).find? p = some x := by
  intro l₁
  induction l₁ with
  | nil => intro l₂ x h; cases h
  | cons a l₁ ih =>
    intro l₂ x h
    cases hpa : p a with
    | false =>
      simp only [List.cons_append, List.find?, hpa] at h ⊢
      exact ih _ h
    | true =>
      simp only [List.cons_append, List.find?, hpa] at h ⊢
      exact h

/-- `find?_updateFirst_ne` with everything explicit. -/
theorem findEscrow?_updateFirst_ne (l : List Escrow) (oid' oid : OrderId)
    (f : Escrow → Escrow) (hf : ∀ e, (f e).order_id = e.order_id)
    (hne : oid' ≠ oid) :
    (updateFirst l oid' f).find? (fun e => e.order_id == oid) =
      l.find? (fun e => e.order_id == oid) :=
  find?_updateFirst_ne hf hne

/-- The escrow lookup is unchanged by `create_receipt_stub`. -/
theorem create_receipt_stub_find (s₁ : EngineState) (oid' oid : OrderId)
    (b : Bool) :
    EngineState.findEscrow? (s₁.create_receipt_stub oid' b).2 oid =
      s₁.findEscrow? oid := by
  unfold EngineState.findEscrow?
  rw [create_receipt_stub_escrows]

/-- A stub created for a different order does not change the receipts
filtered to ours. -/
theorem create_receipt_stub_filter_ne (s₁ : EngineState)
    (oid' oid : OrderId) (b : Bool) (hne : oid' ≠ oid) :
    ((s₁.create_receipt_stub oid' b).2.receipts.filter
      (fun m => m.session_id == oid)) =
      s₁.receipts.filter (fun m => m.session_id == oid) := by
  simp only [EngineState.create_receipt_stub]
  cases hf : s₁.findEscrow? oid' with
  | none => simp [hf]
  | some e2 =>
    simp only [hf]
    have hoid : e2.order_id = oid' := by
      simpa using List.find?_some hf
    simp [List.filter_append, stubUpd, hoid, hne]

/-- A finalization of a different order does not change the receipts
filtered to ours. -/
theorem finalize_receipt_filter_ne (s₁ : EngineState)
    (oid' oid : OrderId) (rb : Bool) (hne : oid' ≠ oid) :
    ((s₁.finalize_receipt oid' rb).2.receipts.filter
      (fun m => m.session_id == oid)) =
      s₁.receipts.filter (fun m => m.session_id == oid) := by
  simp only [EngineState.finalize_receipt]
  cases hf : s₁.findEscrow? oid' with
  | none => simp [hf]
  | some e2 =>
    simp only [hf]
    split
    · show ((updateLastR s₁.receipts (fun m => m.session_id == oid')
        (finalizeUpd s₁ e2 rb)).filter (fun m => m.session_id == oid)) = _
      refine filter_updateLastR (fun m hm => ?_) (fun m hm => ?_)
      · have hmo : m.session_id = oid' := by simpa using hm
        simp [hmo, hne]
      · have hmo : m.session_id = oid' := by simpa using hm
        simp [finalizeUpd, hmo, hne]
    · rfl

/-- Once the first escrow with a given order id is `BuyerWithdrawn`,
every further operation leaves that escrow record untouched and leaves
every receipt of that order untouched. -/
theorem frozen_after_withdraw (oid : OrderId) (e' : Escrow)
    (hterm : e'.state = EscrowState.BuyerWithdrawn)
    (R₀ : List ReceiptMetadata) (u : EngineState) (op : Op)
    (hu : u.findEscrow? oid = some e' ∧
      u.receipts.filter (fun m => m.session_id == oid) = R₀) :
    (applyOp u op).2.findEscrow? oid = some e' ∧
    (applyOp u op).2.receipts.filter (fun m => m.session_id == oid) = R₀ := by
  have hsame : ∀ {oid' : OrderId} {e2 : Escrow},
      u.findEscrow? oid' = some e2 → oid' = oid → e2 = e' := by
    intro oid' e2 h2 hkey
    subst hkey
    rw [hu.1] at h2
    exact Option.some_inj.mp h2.symm
  cases op with
  | buyer_commit b sl a p c t =>
    simp only [applyOp, EngineState.buyer_commit]
    split
    · exact hu
    · constructor
      · simp only [EngineState.findEscrow?]
        exact find?_append_left _ _ _ hu.1
      · simpa [List.filter_append] using hu.2
  | seller_accept oid' t =>
    simp only [applyOp, EngineState.seller_accept]
    cases hfind2 : u.findEscrow? oid' with
    | none => simp only [hfind2]; exact hu
    | some e2 =>
      simp only [hfind2]
      by_cases hkey : oid' = oid
      · have he2 := hsame hfind2 hkey
        subst he2
        rw [if_pos (by simp [hterm])]
        exact hu
      · split_ifs with h1 h2 h3
        · exact hu
        · exact hu
        · exact hu
        · exact ⟨(findEscrow?_updateFirst_ne u.escrows oid' oid
            (acceptUpd u.chain_id u.current_mono t) (fun x => rfl)
            hkey).trans hu.1, hu.2⟩
  | seller_fulfill oid' t =>
    simp only [applyOp, EngineState.seller_fulfill]
    cases hfind2 : u.findEscrow? oid' with
    | none => simp only [hfind2]; exact hu
    | some e2 =>
      simp only [hfind2]
      by_cases hkey : oid' = oid
      · have he2 := hsame hfind2 hkey
        subst he2
        rw [if_pos (by simp [hterm, EscrowState.can_fulfill])]
        exact hu
      · split_ifs with h1 h2
        · exact hu
        · exact hu
        · constructor
          · rw [create_receipt_stub_find]
            exact (findEscrow?_updateFirst_ne u.escrows oid' oid
              (fulfillUpd u.current_mono t
                (match e2.fulfillment_deadline_mono with
                 | some deadline => decide (u.current_mono > deadline)
                 | none => false)) (fun x => rfl) hkey).trans hu.1
          · rw [create_receipt_stub_filter_ne _ _ _ _ hkey]
            exact hu.2
  | seller_claim oid' t =>
    simp only [applyOp, EngineState.seller_claim]
    cases hfind2 : u.findEscrow? oid' with
    | none => simp only [hfind2]; exact hu
    | some e2 =>
      simp only [hfind2]
      by_cases hkey : oid' = oid
      · have he2 := hsame hfind2 hkey
        subst he2
        rw [if_pos (by simp [hterm])]
        exact hu
      · split_ifs with h1 h2
        · exact hu
        · exact hu
        · constructor
          · rw [finalize_receipt_find]
            exact (findEscrow?_updateFirst_ne u.escrows oid' oid
              (claimUpd u.current_mono u.current_block_height t)
              (fun x => rfl) hkey).trans hu.1
          · rw [finalize_receipt_filter_ne _ _ _ _ hkey]
            exact hu.2
  | seller_refund oid' t =>
    simp only [applyOp, EngineState.seller_refund]
    cases hfind2 : u.findEscrow? oid' with
    | none => simp only [hfind2]; exact hu
    | some e2 =>
      simp only [hfind2]
      by_cases hkey : oid' = oid
      · have he2 := hsame hfind2 hkey
        subst he2
        rw [if_pos (by simp [hterm])]
        exact hu
      · split_ifs with h1 h2
        · exact hu
        · exact hu
        · constructor
          · rw [finalize_receipt_find]
            exact (findEscrow?_updateFirst_ne u.escrows oid' oid
              (refundUpd u.current_mono u.current_block_height t)
              (fun x => rfl) hkey).trans hu.1
          · rw [finalize_receipt_filter_ne _ _ _ _ hkey]
            exact hu.2
  | buyer_withdraw oid' t =>
    simp only [applyOp, EngineState.buyer_withdraw]
    cases hfind2 : u.findEscrow? oid' with
    | none => simp only [hfind2]; exact hu
    | some e2 =>
      simp only [hfind2]
      by_cases hkey : oid' = oid
      · have he2 := hsame hfind2 hkey
        subst he2
        rw [if_pos (by simp [hterm])]
        exact hu
      · split_ifs with h1 h2
        · exact hu
        · exact hu
        · exact ⟨(findEscrow?_updateFirst_ne u.escrows oid' oid
            (withdrawUpd u.current_mono t) (fun x => rfl) hkey).trans hu.1,
            hu.2⟩
  | timed_release oid' =>
    simp only [applyOp, EngineState.timed_release]
    cases hfind2 : u.findEscrow? oid' with
    | none => simp only [hfind2]; exact hu
    | some e2 =>
      simp only [hfind2]
      by_cases hkey : oid' = oid
      · have he2 := hsame hfind2 hkey
        subst he2
        split_ifs with h1 h2 h3
        · exact hu
        · exact hu
        · exact hu
        · exact absurd ⟨by simp [hterm], by simp [hterm]⟩ h2
      · split_ifs with h1 h2 h3
        · exact hu
        · exact hu
        · exact hu
        · constructor
          · rw [finalize_receipt_find]
            exact (findEscrow?_updateFirst_ne u.escrows oid' oid
              (timedUpd u.current_block_height
                ("auto_claim_txid_" ++ Nat.repr u.current_mono))
              (fun x => rfl) hkey).trans hu.1
          · rw [finalize_receipt_filter_ne _ _ _ _ hkey]
            exact hu.2
  | update_state oid' =>
    simp only [applyOp, EngineState.update_state]
    cases hfind2 : u.findEscrow? oid' with
    | none => simp only [hfind2]; exact hu
    | some e2 =>
      simp only [hfind2]
      by_cases hkey : oid' = oid
      · have he2 := hsame hfind2 hkey
        subst he2
        split
        · rename_i hst hdl
          rw [hterm] at hst
          cases hst
        · exact hu
      · split
        · split_ifs with h1
          · exact ⟨(findEscrow?_updateFirst_ne u.escrows oid' oid
              expireUpd (fun x => rfl) hkey).trans hu.1, hu.2⟩
          · exact hu
        · exact hu
  | advance_time secs => exact hu

/-- C10: for an escrow in `FulfillmentExpired` that has already recorded
a (late) fulfillment, `buyer_withdraw` succeeds with no timing check,
the escrow terminates in `BuyerWithdrawn` while keeping the seller's
fulfillment provenance, the receipts store is untouched by the
withdrawal, and no later sequence of operations ever changes the
escrow record or any receipt of that order (in particular the stub is
never finalized). -/
theorem C10_withdraw_after_late_fulfill (s : EngineState) (oid : OrderId)
    (otx : Option String) (e : Escrow) (fm : Nat) (ftx : String)
    (hfind : s.findEscrow? oid = some e)
    (hstate : e.state = EscrowState.FulfillmentExpired)
    (hfm : e.fulfillment_mono = some fm)
    (hftx : e.seller_fulfill_txid = some ftx) :
    (s.buyer_withdraw oid otx).1 = Except.ok e.amount ∧
    (s.buyer_withdraw oid otx).2.receipts = s.receipts ∧
    ((withdrawUpd s.current_mono otx e).state =
        EscrowState.BuyerWithdrawn ∧
      (withdrawUpd s.current_mono otx e).fulfillment_mono = some fm ∧
      (withdrawUpd s.current_mono otx e).seller_fulfill_txid = some ftx) ∧
    (∀ ops : List Op,
      (run (s.buyer_withdraw oid otx).2 ops).findEscrow? oid =
        some (withdrawUpd s.current_mono otx e) ∧
      (run (s.buyer_withdraw oid otx).2 ops).receipts.filter
        (fun m => m.session_id == oid) =
        s.receipts.filter (fun m => m.session_id == oid)) := by
  have hguard1 : ¬(e.state ≠ EscrowState.BuyerCommitted ∧
      e.state ≠ EscrowState.FulfillmentExpired) := by
    simp [hstate]
  have hguard2 : ¬(e.state = EscrowState.BuyerCommitted ∧
      s.current_mono ≤ e.acceptance_deadline_mono) := by
    simp [hstate]
  have hpost : s.buyer_withdraw oid otx = (Except.ok e.amount,
      { s with
        escrows := updateFirst s.escrows oid
            (withdrawUpd s.current_mono otx) }) := by
    simp only [EngineState.buyer_withdraw, hfind]
    rw [if_neg hguard1, if_neg hguard2]
  have hfindpost : (s.buyer_withdraw oid otx).2.findEscrow? oid =
      some (withdrawUpd s.current_mono otx e) := by
    rw [hpost]
    exact updateFirst_escrows_preserve (withdrawUpd s.current_mono otx)
      (fun x => rfl) hfind
  refine ⟨by rw [hpost], by rw [hpost], ⟨rfl, by simp [withdrawUpd, hfm],
    by simp [withdrawUpd, hftx]⟩, ?_⟩
  intro ops
  have hreceipts : (s.buyer_withdraw oid otx).2.receipts.filter
      (fun m => m.session_id == oid) =
      s.receipts.filter (fun m => m.session_id == oid) := by
    rw [hpost]
  exact run_preserves (fun u =>
      u.findEscrow? oid = some (withdrawUpd s.current_mono otx e) ∧
      u.receipts.filter (fun m => m.session_id == oid) =
        s.receipts.filter (fun m => m.session_id == oid))
    (fun u op h => frozen_after_withdraw oid
      (withdrawUpd s.current_mono otx e) rfl _ u op h)
    ops _ ⟨hfindpost, hreceipts⟩

/-- The escrow of the double-late-fulfill scenario `sC2`. -/
def c10Escrow : Escrow := (sC2.findEscrow? oid1).getD defaultEscrow

/-- Witness for C10: withdrawing from `sC2` (late-fulfilled, state
`FulfillmentExpired`), then attempting `seller_claim`, leaves the
order's receipts exactly as they were — the stubs are never finalized. -/
theorem C10_withdraw_after_late_fulfill_witness :
    (sC2.buyer_withdraw oid1 none).1 = Except.ok 100 ∧
    (run (sC2.buyer_withdraw oid1 none).2
        [Op.seller_claim oid1 "txZ"]).receipts.filter
      (fun m => m.session_id == oid1) =
      sC2.receipts.filter (fun m => m.session_id == oid1) := by
  have h := C10_withdraw_after_late_fulfill sC2 oid1 none c10Escrow 3601
    "txD" rfl rfl rfl rfl
  exact ⟨h.1, (h.2.2.2 [Op.seller_claim oid1 "txZ"]).2⟩

end TBC
